import Mathlib

set_option maxRecDepth 8000

/- Verification development for lightmanager.c (jbmedia Light Manager gateway
   daemon, v2.03.0021).  The definitions below are a shallow embedding of the
   command engine, the FS20 address codec, the clock transaction and the USB
   retry loop of src/lightmanager.c.  Machine integers are modelled as Int
   (with explicit % 256 where the C code stores into a char byte), strings as
   List Char, and the libusb / libc collaborators as an explicit environment
   of oracles.  The HTTP front end, logging, daemonisation and the TCP layer
   are out of scope of the claims and are not modelled. -/

namespace LMC

/-- C isspace over the ASCII whitespace set, as used by the source's
    trim and fs20toi loops. -/
def isspaceC (c : Char) : Bool :=
  c == ' ' || c == '\t' || c == '\n' || c == Char.ofNat 11 || c == Char.ofNat 12 || c == '\r'

/-- Lower-casing of one character exactly as the source's stricmp does it:
    characters between A and Z are shifted by 0x20, all others unchanged. -/
def lcChar (c : Char) : Char :=
  if 'A' ≤ c ∧ c ≤ 'Z' then Char.ofNat (c.toNat + 32) else c

/-- C toupper restricted to ASCII, as used on the InterTechno code letter. -/
def ucChar (c : Char) : Char :=
  if 'a' ≤ c ∧ c ≤ 'z' then Char.ofNat (c.toNat - 32) else c

/-- cmdcompare(cs, ct) == 0: the source's stricmp returns 0 exactly when the
    two strings agree after per-character lower-casing. -/
def cmdEq (s t : List Char) : Bool :=
  s.map lcChar == t.map lcChar

/-- strtok-style splitting: runs of delimiter characters separate tokens and
    empty tokens are never produced, matching repeated strtok calls. -/
def splitTok (delims : List Char) (s : List Char) : List (List Char) :=
  (s.foldr
    (fun c acc =>
      if c ∈ delims then [] :: acc
      else
        match acc with
        | [] => [[c]]
        | t :: ts => (c :: t) :: ts)
    []).filter (fun t => t ≠ [])

/-- CMD_DELIMITER ",;&" of the source. -/
def cmdDelims : List Char := [',', ';', '&']

/-- TOKEN_DELIMITER " ,;\t\v\f" of the source. -/
def tokDelims : List Char := [' ', ',', ';', '\t', Char.ofNat 11, Char.ofNat 12]

/-- Splitting one command substring into its tokens (strtok with
    TOKEN_DELIMITER). -/
def tokenize (s : List Char) : List (List Char) :=
  splitTok tokDelims s

/-- strtol(s, NULL, 10): skip whitespace, optional sign, then decimal digits;
    the second component models errno == ERANGE (clamping at the long
    limits).  Tokens with no leading digits yield 0 with errno unset. -/
def strtol10 (s : List Char) : Int × Bool :=
  let s1 := s.dropWhile (fun c => isspaceC c)
  let p : Bool × List Char :=
    match s1 with
    | '-' :: r => (true, r)
    | '+' :: r => (false, r)
    | r => (false, r)
  let ds := p.2.takeWhile (fun c => '0' ≤ c ∧ c ≤ '9')
  let n : Nat := ds.foldl (fun a c => a * 10 + (c.toNat - 48)) 0
  if p.1 then
    if 2 ^ 63 < n then (-(2 ^ 63), true) else (-(n : Int), false)
  else
    if 2 ^ 63 ≤ n then (2 ^ 63 - 1, true) else ((n : Int), false)

/-- The character the C expression *(ptr+strlen(ptr)-1) reads on a non-empty
    token: the last character (the default is never used on strtok tokens,
    which are non-empty). -/
def lastD (t : List Char) : Char :=
  t.getLast?.getD (Char.ofNat 0)

/-- fs20toi: convert an FS20 code string to an int.  The length of the
    string must be even, otherwise -1 is returned; afterwards characters are
    consumed two at a time (stopping at a space), each pair contributing the
    nibble ((c1-'0')-1)*4 + ((c2-'0')-1) to the running result via
    res = (res << 4) + pair.  No range check on the characters is done.
    The singleton case is unreachable: the even length is preserved by
    two-character steps. -/
def fs20toiGo : List Char → Int → Int
  | c1 :: c2 :: rest, res =>
    if isspaceC c1 then res
    else fs20toiGo rest (res * 16 + (((c1.toNat : Int) - 48 - 1) * 4 + ((c2.toNat : Int) - 48 - 1)))
  | [_], res => res
  | [], res => res

/-- fs20toi of the source (the endptr out-parameter is not modelled; no
    caller of interest reads it). -/
def fs20toi (s : List Char) : Int :=
  if s.length % 2 ≠ 0 then -1 else fs20toiGo s 0

/-- itoa(v, buf, 4) for the nibble values 0..15 that itofs20 passes: one
    base-4 digit for v < 4, two digits otherwise. -/
def itoa4 (v : Nat) : List Char :=
  if v < 4 then [Char.ofNat (48 + v)]
  else [Char.ofNat (48 + v / 4), Char.ofNat (48 + v % 4)]

/-- One loop iteration of itofs20: a nibble below 4 gets a leading '0'
    before its single base-4 digit, otherwise itoa emits two digits. -/
def nibChunk (v : Nat) : List Char :=
  if v < 4 then '0' :: itoa4 v else itoa4 v

/-- The final pass of itofs20: buf[strpos++]++ on every character. -/
def bumpChar (c : Char) : Char :=
  Char.ofNat (c.toNat + 1)

/-- itofs20(buf, code, NULL): the while loop over shift = 12, 8, 4, 0
    (the source's (code>0xff)?12:12 is 12 in both arms), unrolled, followed
    by the '+1 on every character' pass.  The separator argument is NULL at
    every call site the claims concern, so the separator branch is omitted.
    The C int argument is non-negative at those call sites, hence Nat. -/
def itofs20 (code : Nat) : List Char :=
  ((nibChunk (code / 2 ^ 12 % 16) ++ nibChunk (code / 2 ^ 8 % 16) ++
    nibChunk (code / 2 ^ 4 % 16) ++ nibChunk (code / 2 ^ 0 % 16)).map bumpChar)

/-- Validity of one FS20 code character as documented by the help text:
    a digit between '1' and '4'. -/
def valid4 (c : Char) : Prop :=
  c = '1' ∨ c = '2' ∨ c = '3' ∨ c = '4'

instance (c : Char) : Decidable (valid4 c) := by
  unfold valid4; infer_instance

/-- A valid FS20 address string: every character between '1' and '4'. -/
def validFS20 (s : List Char) : Prop :=
  ∀ c ∈ s, valid4 c

instance (s : List Char) : Decidable (validFS20 s) := by
  unfold validFS20; infer_instance

/-- USB_MAX_RETRY of the source: max number of attempts per transfer
    direction inside usb_send. -/
def USB_MAX_RETRY : Nat := 5

/-- USB_WAIT_ON_ERROR of the source: milliseconds slept between two
    unsuccessful transfer attempts. -/
def USB_WAIT_ON_ERROR : Nat := 250

/-- Observable behaviour of one usb_send call: how many outbound and inbound
    interrupt transfers were attempted, how many USB_WAIT_ON_ERROR sleeps
    happened in each direction, and whether the call returned an error. -/
structure UsbRes where
  outAttempts : Nat
  outSleeps : Nat
  inAttempts : Nat
  inSleeps : Nat
  err : Bool
deriving DecidableEq, Repr

/-- One retry loop of usb_send: ret starts as failure; while ret != 0 and
    retries remain, the transfer is attempted (f k gives the outcome of the
    k-th attempt), and after a failed attempt with retries left the loop
    sleeps USB_WAIT_ON_ERROR ms.  Returns (attempts, sleeps, success). -/
def retryLoop (f : Nat → Bool) : Nat → Nat → Nat × Nat × Bool
  | 0, _ => (0, 0, false)
  | r + 1, k =>
    if f k then (1, 0, true)
    else if r = 0 then (1, 0, false)
    else
      let rest := retryLoop f r (k + 1)
      (rest.1 + 1, rest.2.1 + 1, rest.2.2)

/-- usb_send(dev, data, fexpectdata) of the source, with the outcome of each
    outbound (endpoint 0x01) and inbound (endpoint 0x82) transfer attempt
    supplied by the oracles outF and inF.  Note that the inbound block is
    guarded only by fexpectdata, not by the success of the outbound leg;
    err keeps the last failing ret of whichever legs exhausted their
    retries. -/
def usb_send (outF inF : Nat → Bool) (fexpectdata : Bool) : UsbRes :=
  let o := retryLoop outF USB_MAX_RETRY 0
  if fexpectdata then
    let i := retryLoop inF USB_MAX_RETRY 0
    ⟨o.1, o.2.1, i.1, i.2.1, !o.2.2 || !i.2.2⟩
  else
    ⟨o.1, o.2.1, 0, 0, !o.2.2⟩

/-- struct tm fields the source reads and writes (tm_mon is 0-based and
    tm_year counts from 1900, as in libc). -/
structure Tm where
  sec : Int
  min : Int
  hour : Int
  mday : Int
  mon : Int
  wday : Int
  year : Int
deriving DecidableEq, Repr

/-- The collaborators of the command engine: the outcome and reply buffer of
    the n-th usb_send call of the session, the current local time, libc's
    strptime / mktime / localtime, and the value the indeterminate comparison
    "set_time(...) != 0" takes when set_time falls off its end without a
    return statement. -/
structure Env where
  usbOk : Nat → Bool
  usbReply : Nat → List Int
  nowTm : Tm
  strptimeFn : List Char → List Char → Tm → Tm
  mktimeFn : Tm → Int
  localtimeFn : Int → Tm
  undefNonzero : Bool

/-- Mutable state a command can observe or change: the global housecode, the
    per-handle_input quiet flag and the number of usb_send calls made so
    far (the index into the transport oracles). -/
structure CmdSt where
  housecode : Int
  quiet : Bool
  usbCount : Nat
deriving DecidableEq, Repr

/-- A usb_send call at dispatch level: bumps the call counter and reports
    whether the call succeeded. -/
def usbSendAt (env : Env) (st : CmdSt) : CmdSt × Bool :=
  ({ st with usbCount := st.usbCount + 1 }, env.usbOk st.usbCount)

/-- Truncation of an int to the byte stored in the char frame buffer and
    read back as unsigned char by the transfer. -/
def byteOf (v : Int) : Int :=
  v % 256

/-- Reading byte i of a reply buffer. -/
def bufGet (l : List Int) (i : Nat) : Int :=
  l.getD i 0

/-- BCD packing of one clock byte: (v/10)*0x10 + v%10 with C (truncating)
    division. -/
def bcd (v : Int) : Int :=
  Int.tdiv v 10 * 16 + Int.tmod v 10

/-- Return value of the C function set_time: an explicit `return 0` on a
    transport failure, or undef when control falls off the end of the
    function (the source has no return statement on the all-success path). -/
inductive CRet where
  | val (v : Int)
  | undef
deriving DecidableEq, Repr

/-- The caller-side test `set_time(...) != 0`; on the undef return value the
    comparison result is indeterminate and taken from the environment. -/
def cretNonzero (env : Env) : CRet → Bool
  | .val v => v != 0
  | .undef => env.undefNonzero

/-- One device frame paired with the fexpectdata flag of its usb_send. -/
abbrev SendRec := List Int × Bool

/-- set_time of the source: frame (1) is opcode 0x08 with bytes 1..7 the BCD
    packed sec, min, hour, mday, mon+1, weekday (0 mapped to 7) and
    year-100; frame (2) has only byte[2] = 0x0d; frame (3) is
    06 02 01 02.  Each frame is sent without expecting data; the first
    failure returns 0 immediately, and after three successes the function
    ends without returning a value.  Byte-level char truncation coincides
    with byteOf ∘ bcd on the calendar ranges localtime produces. -/
def set_time (env : Env) (st : CmdSt) (t : Tm) : CmdSt × List SendRec × CRet :=
  let f1 : List Int :=
    [8, byteOf (bcd t.sec), byteOf (bcd t.min), byteOf (bcd t.hour),
     byteOf (bcd t.mday), byteOf (bcd (t.mon + 1)),
     byteOf (bcd (if t.wday = 0 then 7 else t.wday)), byteOf (bcd (t.year - 100))]
  let r1 := usbSendAt env st
  if r1.2 = false then (r1.1, [(f1, false)], CRet.val 0)
  else
    let f2 : List Int := [0, 0, 13, 0, 0, 0, 0, 0]
    let r2 := usbSendAt env r1.1
    if r2.2 = false then (r2.1, [(f1, false), (f2, false)], CRet.val 0)
    else
      let f3 : List Int := [6, 2, 1, 2, 0, 0, 0, 0]
      let r3 := usbSendAt env r2.1
      if r3.2 = false then (r3.1, [(f1, false), (f2, false), (f3, false)], CRet.val 0)
      else (r3.1, [(f1, false), (f2, false), (f3, false)], CRet.undef)

/-- get_time of the source: sends opcode 0x09 expecting a reply; on
    transport failure returns -1, otherwise composes a struct tm from the
    reply bytes (ss mm hh dd MM ww yy layout, month 1-based, year two-digit)
    on top of the current local time and returns mktime of it. -/
def get_time (env : Env) (st : CmdSt) : CmdSt × List SendRec × Int :=
  let fr : List Int := [9, 0, 0, 0, 0, 0, 0, 0]
  let r := usbSendAt env st
  if r.2 then
    let buf := env.usbReply st.usbCount
    let ti : Tm :=
      { env.nowTm with
        sec := bufGet buf 0, min := bufGet buf 1, hour := bufGet buf 2,
        mday := bufGet buf 3, mon := bufGet buf 4 - 1, year := bufGet buf 6 + 100 }
    (r.1, [(fr, true)], env.mktimeFn ti)
  else (r.1, [(fr, true)], -1)

/-- Command keywords of the dispatcher, as character lists. -/
def kwHELP : List Char := ['H', 'E', 'L', 'P']

def kwH : List Char := ['H']

def kwQm : List Char := ['?']

def kwVERSION : List Char := ['V', 'E', 'R', 'S', 'I', 'O', 'N']

def kwVERBOSE : List Char := ['V', 'E', 'R', 'B', 'O', 'S', 'E']

def kwQUIET : List Char := ['Q', 'U', 'I', 'E', 'T']

def kwFS20 : List Char := ['F', 'S', '2', '0']

def kwUNI : List Char := ['U', 'N', 'I']

def kwIT : List Char := ['I', 'T']

def kwInterTechno : List Char := ['I', 'n', 't', 'e', 'r', 'T', 'e', 'c', 'h', 'n', 'o']

def kwSCENE : List Char := ['S', 'C', 'E', 'N', 'E']

def kwGET : List Char := ['G', 'E', 'T']

def kwSET : List Char := ['S', 'E', 'T']

def kwWAIT : List Char := ['W', 'A', 'I', 'T']

def kwQUIT : List Char := ['Q', 'U', 'I', 'T']

def kwQ : List Char := ['Q']

def kwEXIT : List Char := ['E', 'X', 'I', 'T']

def kwE : List Char := ['E']

def kwON : List Char := ['O', 'N']

def kwUP : List Char := ['U', 'P']

def kwOPEN : List Char := ['O', 'P', 'E', 'N']

def kwOFF : List Char := ['O', 'F', 'F']

def kwDOWN : List Char := ['D', 'O', 'W', 'N']

def kwCLOSE : List Char := ['C', 'L', 'O', 'S', 'E']

def kwTOGGLE : List Char := ['T', 'O', 'G', 'G', 'L', 'E']

def kwBRIGHT : List Char := ['B', 'R', 'I', 'G', 'H', 'T']

def kwPLUS : List Char := ['+']

def kwDARK : List Char := ['D', 'A', 'R', 'K']

def kwMINUS : List Char := ['-']

def kwSTOP : List Char := ['S', 'T', 'O', 'P']

def kwCLOCK : List Char := ['C', 'L', 'O', 'C', 'K']

def kwTIME : List Char := ['T', 'I', 'M', 'E']

def kwTEMP : List Char := ['T', 'E', 'M', 'P']

def kwTEMPERATURE : List Char := ['T', 'E', 'M', 'P', 'E', 'R', 'A', 'T', 'U', 'R', 'E']

def kwHOUSECODE : List Char := ['H', 'O', 'U', 'S', 'E', 'C', 'O', 'D', 'E']

def kwAUTO : List Char := ['A', 'U', 'T', 'O']

def kwAUTOCORRECTION : List Char :=
  ['A', 'U', 'T', 'O', 'C', 'O', 'R', 'R', 'E', 'C', 'T', 'I', 'O', 'N']

/-- strptime format strings used by SET CLOCK, one per argument length. -/
def fmt8 : List Char := ['%', 'm', '%', 'd', '%', 'H', '%', 'M']

def fmt10 : List Char := fmt8 ++ ['%', 'y']

def fmt11 : List Char := fmt8 ++ ['.', '%', 'S']

def fmt12 : List Char := fmt8 ++ ['%', 'Y']

def fmt13 : List Char := fmt8 ++ ['%', 'y', '.', '%', 'S']

def fmt15 : List Char := fmt8 ++ ['%', 'Y', '.', '%', 'S']

/-- One constructor per distinct seterror format string of the source (plus
    noMsg for errormsg == NULL). -/
inductive ErrMsg where
  | noMsg
  | usbCommError
  | missingAddr
  | wrongAddr (t : List Char)
  | missingCmd
  | unknownCmd (t : List Char)
  | wrongCmd (t : List Char)
  | dimRange16
  | dimRange248
  | codeRange
  | missingCode
  | addrRange16 (t : List Char)
  | sceneRange
  | missingParam
  | unknownParam (t : List Char)
  | clockFormat
  | hcWrong (t : List Char)
  | hcMissing
  | unknownCommand (t : List Char)
deriving DecidableEq, Repr

/-- One write_to_client call of the command engine, by payload; the HTML
    escaping flag only reformats the same payload and is not modelled. -/
inductive OutEvent where
  | helpText
  | versionText
  | timeText (t : Int)
  | tempText (raw : Int)
  | housecodeText (s : List Char)
  | statusLine (cmd : List Char) (ok : Bool) (msg : ErrMsg)
deriving DecidableEq, Repr

/-- Whether an output event is the per-command status line. -/
def isStatusEv : OutEvent → Bool
  | .statusLine _ _ _ => true
  | _ => false

/-- Result of one family handler: new state, body outputs, frames sent, the
    fcmdok flag and the errormsg value. -/
structure HRes where
  st : CmdSt
  outs : List OutEvent
  sends : List SendRec
  ok : Bool
  msg : ErrMsg
deriving Repr

/-- How handle_input's command loop proceeds after a command: continue with
    the next command, return -1 (QUIT) or return -2 (EXIT). -/
inductive StepKind where
  | cont
  | quit
  | halt
deriving DecidableEq, Repr

/-- The FS20 <cmd> token decode: named switch keywords, else the dimming
    case via strtol (with the trailing % rescale 16*v/100 in C truncating
    division); -2 encodes the rejected dim level. -/
def fs20cmdDecode (t : List Char) : Int :=
  if cmdEq t kwON = true ∨ cmdEq t kwUP = true ∨ cmdEq t kwOPEN = true then 0x11
  else if cmdEq t kwOFF = true ∨ cmdEq t kwDOWN = true ∨ cmdEq t kwCLOSE = true then 0x00
  else if cmdEq t kwTOGGLE = true then 0x12
  else if cmdEq t kwBRIGHT = true ∨ cmdEq t kwPLUS = true then 0x13
  else if cmdEq t kwDARK = true ∨ cmdEq t kwMINUS = true then 0x14
  else
    let r := strtol10 t
    let d := if lastD t = '%' then Int.tdiv (16 * r.1) 100 else r.1
    if r.2 = true ∨ d < 0 ∨ 16 < d then -2 else d

/-- The FS20 branch of handle_input, applied to the tokens after the FS20
    keyword: frame 01 hc_hi hc_lo addr cmd 00 03 00, sent without expecting
    data.  The cmd = -1 case mirrors the source's dead "unknown <cmd>
    parameter" arm. -/
def fs20Run (env : Env) (st : CmdSt) (toks : List (List Char)) : HRes :=
  match toks with
  | [] => ⟨st, [], [], false, .missingAddr⟩
  | addrTok :: rest =>
    let addr := fs20toi addrTok
    if 0 ≤ addr then
      match rest with
      | [] => ⟨st, [], [], false, .missingCmd⟩
      | cmdTok :: _ =>
        let cmd := fs20cmdDecode cmdTok
        if 0 ≤ cmd then
          let fr : List Int :=
            [1, byteOf (st.housecode / 256), byteOf st.housecode, byteOf addr,
             byteOf cmd, 0, 3, 0]
          let r := usbSendAt env st
          if r.2 then ⟨r.1, [], [(fr, false)], true, .noMsg⟩
          else ⟨r.1, [], [(fr, false)], false, .usbCommError⟩
        else if cmd = -1 then ⟨st, [], [], false, .unknownCmd cmdTok⟩
        else ⟨st, [], [], false, .dimRange16⟩
    else ⟨st, [], [], false, .wrongAddr addrTok⟩

/-- The Uniroll <cmd> decode: STOP, UP or +, DOWN or minus. -/
def uniCmdDecode (t : List Char) : Int :=
  if cmdEq t kwSTOP = true then 2
  else if cmdEq t kwUP = true ∨ cmdEq t kwPLUS = true then 1
  else if cmdEq t kwDOWN = true ∨ cmdEq t kwMINUS = true then 4
  else -1

/-- The UNI branch of handle_input: addr via strtol with errno check and
    range 1..16, frame 15 (addr-1) 74 cmd 00 00 00 00. -/
def uniRun (env : Env) (st : CmdSt) (toks : List (List Char)) : HRes :=
  match toks with
  | [] => ⟨st, [], [], false, .missingAddr⟩
  | aTok :: rest =>
    let r := strtol10 aTok
    if r.2 = false ∧ 1 ≤ r.1 ∧ r.1 ≤ 16 then
      match rest with
      | [] => ⟨st, [], [], false, .missingCmd⟩
      | cTok :: _ =>
        let cmd := uniCmdDecode cTok
        if 0 ≤ cmd then
          let fr : List Int :=
            [0x15, byteOf (r.1 - 1), 0x74, byteOf cmd, 0, 0, 0, 0]
          let s := usbSendAt env st
          if s.2 then ⟨s.1, [], [(fr, false)], true, .noMsg⟩
          else ⟨s.1, [], [(fr, false)], false, .usbCommError⟩
        else ⟨st, [], [], false, .wrongCmd cTok⟩
    else ⟨st, [], [], false, .wrongAddr aTok⟩

/-- The InterTechno <cmd> decode: (cmd, maincmd); maincmd is 0x06 for the
    named commands and 0x05 for the dimming case (248*v/100 on a trailing
    %); a rejected dim level yields cmd = -2. -/
def itDecode (t : List Char) : Int × Int :=
  if cmdEq t kwON = true ∨ cmdEq t kwUP = true ∨ cmdEq t kwOPEN = true then (0x01, 0x06)
  else if cmdEq t kwOFF = true ∨ cmdEq t kwDOWN = true ∨ cmdEq t kwCLOSE = true then (0x00, 0x06)
  else if cmdEq t kwTOGGLE = true then (0x02, 0x06)
  else if cmdEq t kwBRIGHT = true ∨ cmdEq t kwPLUS = true then (0x05, 0x06)
  else if cmdEq t kwDARK = true ∨ cmdEq t kwMINUS = true then (0x06, 0x06)
  else
    let r := strtol10 t
    let d := if lastD t = '%' then Int.tdiv (248 * r.1) 100 else r.1
    if r.2 = true ∨ d < 0 ∨ 248 < d then (-2, 0x05) else (d, 0x05)

/-- The IT / InterTechno branch of handle_input: first character of the
    code token upper-cased and required in A..Z, addr via strtol with errno
    check and range 1..16, then frame 05 (code*16+addr-1) cmd maincmd 01,
    with byte[4] = 0x01 set for every command.  Any cmd < 0 reports the
    "wrong <cmd> parameter" message (the source overwrites the dim-level
    message in this branch). -/
def itRun (env : Env) (st : CmdSt) (toks : List (List Char)) : HRes :=
  match toks with
  | [] => ⟨st, [], [], false, .missingCode⟩
  | codeTok :: rest =>
    match codeTok with
    | [] => ⟨st, [], [], false, .codeRange⟩
    | c :: _ =>
      let u := ucChar c
      if 'A' ≤ u ∧ u ≤ 'Z' then
        let code : Int := (u.toNat : Int) - 65
        match rest with
        | [] => ⟨st, [], [], false, .missingAddr⟩
        | aTok :: rest2 =>
          let r := strtol10 aTok
          if r.2 = false ∧ 1 ≤ r.1 ∧ r.1 ≤ 16 then
            match rest2 with
            | [] => ⟨st, [], [], false, .missingCmd⟩
            | cTok :: _ =>
              let dc := itDecode cTok
              if 0 ≤ dc.1 then
                let fr : List Int :=
                  [5, byteOf (code * 16 + (r.1 - 1)), byteOf dc.1, byteOf dc.2,
                   1, 0, 0, 0]
                let s := usbSendAt env st
                if s.2 then ⟨s.1, [], [(fr, false)], true, .noMsg⟩
                else ⟨s.1, [], [(fr, false)], false, .usbCommError⟩
              else ⟨st, [], [], false, .wrongCmd cTok⟩
          else ⟨st, [], [], false, .addrRange16 aTok⟩
      else ⟨st, [], [], false, .codeRange⟩

/-- The SCENE branch of handle_input: strtol of the argument (no errno
    check in the source), range 1..254, frame 0f scene. -/
def sceneRun (env : Env) (st : CmdSt) (toks : List (List Char)) : HRes :=
  match toks with
  | [] => ⟨st, [], [], false, .missingParam⟩
  | t :: _ =>
    let n := (strtol10 t).1
    if 1 ≤ n ∧ n ≤ 254 then
      let fr : List Int := [0x0f, byteOf (1 * n), 0, 0, 0, 0, 0, 0]
      let s := usbSendAt env st
      if s.2 then ⟨s.1, [], [(fr, false)], true, .noMsg⟩
      else ⟨s.1, [], [(fr, false)], false, .usbCommError⟩
    else ⟨st, [], [], false, .sceneRange⟩

/-- The GET branch of handle_input: CLOCK/TIME via get_time, TEMP via
    opcode 0x0c expecting a reply (the temperature line is written only
    when reply byte 0 is 0xfd, without any error otherwise), HOUSECODE via
    itofs20 of the global housecode. -/
def getRun (env : Env) (st : CmdSt) (toks : List (List Char)) : HRes :=
  match toks with
  | [] => ⟨st, [], [], false, .missingParam⟩
  | t :: _ =>
    if cmdEq t kwCLOCK = true ∨ cmdEq t kwTIME = true then
      let g := get_time env st
      if g.2.2 = -1 then ⟨g.1, [], g.2.1, false, .usbCommError⟩
      else ⟨g.1, [.timeText g.2.2], g.2.1, true, .noMsg⟩
    else if cmdEq t kwTEMP = true ∨ cmdEq t kwTEMPERATURE = true then
      let fr : List Int := [0x0c, 0, 0, 0, 0, 0, 0, 0]
      let s := usbSendAt env st
      if s.2 = false then ⟨s.1, [], [(fr, true)], false, .usbCommError⟩
      else
        let buf := env.usbReply st.usbCount
        if bufGet buf 0 = 0xfd then
          ⟨s.1, [.tempText (bufGet buf 1)], [(fr, true)], true, .noMsg⟩
        else ⟨s.1, [], [(fr, true)], true, .noMsg⟩
    else if cmdEq t kwHOUSECODE = true then
      ⟨st, [.housecodeText (itofs20 st.housecode.toNat)], [], true, .noMsg⟩
    else ⟨st, [], [], false, .unknownParam t⟩

/-- The common tail of SET CLOCK: the final set_time call and the
    `set_time(...) != 0` check reporting a USB communication error. -/
def setClockFinal (env : Env) (st : CmdSt) (acc : List SendRec) (ti : Tm) : HRes :=
  let r := set_time env st ti
  if cretNonzero env r.2.2 = true then ⟨r.1, [], acc ++ r.2.1, false, .usbCommError⟩
  else ⟨r.1, [], acc ++ r.2.1, true, .noMsg⟩

/-- The AUTO / AUTOCORRECTION probe of SET CLOCK: a set_time with the
    seconds zeroed, a get_time read-back, and (when the device shifted the
    hour) the hour difference applied to the current local time before the
    final set_time; any transport failure aborts with the USB error. -/
def setClockAuto (env : Env) (st : CmdSt) : HRes :=
  let ti1 : Tm := { env.nowTm with sec := 0 }
  let r1 := set_time env st ti1
  if cretNonzero env r1.2.2 = true then ⟨r1.1, [], r1.2.1, false, .usbCommError⟩
  else
    let g := get_time env r1.1
    if g.2.2 = -1 then ⟨g.1, [], r1.2.1 ++ g.2.1, false, .usbCommError⟩
    else
      let devTm := env.localtimeFn g.2.2
      let diff := ti1.hour - devTm.hour
      let ct := env.nowTm
      let ct2 := if diff ≠ 0 then { ct with hour := ct.hour + diff } else ct
      setClockFinal env g.1 (r1.2.1 ++ g.2.1) ct2

/-- The SET CLOCK|TIME branch: timeinfo starts as the current local time;
    an optional argument is parsed by length via strptime, or the AUTO /
    AUTOCORRECTION probe runs; on success the final set_time runs. -/
def setClockRun (env : Env) (st : CmdSt) (rest : List (List Char)) : HRes :=
  match rest with
  | [] => setClockFinal env st [] env.nowTm
  | pt :: _ =>
    if pt.length = 8 then setClockFinal env st [] (env.strptimeFn fmt8 pt env.nowTm)
    else if pt.length = 10 then setClockFinal env st [] (env.strptimeFn fmt10 pt env.nowTm)
    else if pt.length = 11 then setClockFinal env st [] (env.strptimeFn fmt11 pt env.nowTm)
    else if pt.length = 12 then setClockFinal env st [] (env.strptimeFn fmt12 pt env.nowTm)
    else if pt.length = 13 then setClockFinal env st [] (env.strptimeFn fmt13 pt env.nowTm)
    else if pt.length = 15 then setClockFinal env st [] (env.strptimeFn fmt15 pt env.nowTm)
    else if (pt.length = 4 ∧ cmdEq pt kwAUTO = true) ∨
            (pt.length = 14 ∧ cmdEq pt kwAUTOCORRECTION = true) then
      setClockAuto env st
    else ⟨st, [], [], false, .clockFormat⟩

/-- The SET branch of handle_input: CLOCK/TIME or HOUSECODE (fs20toi of
    the argument; a non-negative result replaces the global housecode). -/
def setRun (env : Env) (st : CmdSt) (toks : List (List Char)) : HRes :=
  match toks with
  | [] => ⟨st, [], [], false, .missingParam⟩
  | t :: rest =>
    if cmdEq t kwCLOCK = true ∨ cmdEq t kwTIME = true then
      setClockRun env st rest
    else if cmdEq t kwHOUSECODE = true then
      match rest with
      | [] => ⟨st, [], [], false, .hcMissing⟩
      | hcTok :: _ =>
        let newhc := fs20toi hcTok
        if 0 ≤ newhc then ⟨{ st with housecode := newhc }, [], [], true, .noMsg⟩
        else ⟨st, [], [], false, .hcWrong hcTok⟩
    else ⟨st, [], [], false, .unknownParam t⟩

/-- The WAIT branch: usleep has no observable effect in this model; a
    missing argument is an error. -/
def waitRun (st : CmdSt) (toks : List (List Char)) : HRes :=
  match toks with
  | [] => ⟨st, [], [], false, .missingParam⟩
  | _ :: _ => ⟨st, [], [], true, .noMsg⟩

/-- The command family a first token selects. -/
inductive CmdFamily where
  | fHelp
  | fVersion
  | fVerbose
  | fQuiet
  | fFS20
  | fUni
  | fIt
  | fScene
  | fGet
  | fSet
  | fWait
  | fQuit
  | fExit
  | fUnknown
deriving DecidableEq, Repr

/-- The cmdcompare chain of handle_input over the first token, in source
    order. -/
def cmdSelect (t : List Char) : CmdFamily :=
  if cmdEq t kwHELP = true ∨ cmdEq t kwH = true ∨ cmdEq t kwQm = true then .fHelp
  else if cmdEq t kwVERSION = true then .fVersion
  else if cmdEq t kwVERBOSE = true then .fVerbose
  else if cmdEq t kwQUIET = true then .fQuiet
  else if cmdEq t kwFS20 = true then .fFS20
  else if cmdEq t kwUNI = true then .fUni
  else if cmdEq t kwIT = true ∨ cmdEq t kwInterTechno = true then .fIt
  else if cmdEq t kwSCENE = true then .fScene
  else if cmdEq t kwGET = true then .fGet
  else if cmdEq t kwSET = true then .fSet
  else if cmdEq t kwWAIT = true then .fWait
  else if cmdEq t kwQUIT = true ∨ cmdEq t kwQ = true then .fQuit
  else if cmdEq t kwEXIT = true ∨ cmdEq t kwE = true then .fExit
  else .fUnknown

/-- The dispatcher of handle_input over the token list of one command: the
    first token selects the family (cmdcompare chain in source order);
    QUIT/Q and EXIT/E return immediately with -1 resp. -2.  An empty token
    list skips the dispatch and reports success. -/
def cmdCore (env : Env) (st : CmdSt) (toks : List (List Char)) : HRes × StepKind :=
  match toks with
  | [] => (⟨st, [], [], true, .noMsg⟩, .cont)
  | t :: rest =>
    match cmdSelect t with
    | .fHelp => (⟨st, [.helpText], [], true, .noMsg⟩, .cont)
    | .fVersion => (⟨st, [.versionText], [], true, .noMsg⟩, .cont)
    | .fVerbose => (⟨{ st with quiet := false }, [], [], true, .noMsg⟩, .cont)
    | .fQuiet => (⟨{ st with quiet := true }, [], [], true, .noMsg⟩, .cont)
    | .fFS20 => (fs20Run env st rest, .cont)
    | .fUni => (uniRun env st rest, .cont)
    | .fIt => (itRun env st rest, .cont)
    | .fScene => (sceneRun env st rest, .cont)
    | .fGet => (getRun env st rest, .cont)
    | .fSet => (setRun env st rest, .cont)
    | .fWait => (waitRun st rest, .cont)
    | .fQuit => (⟨st, [], [], true, .noMsg⟩, .quit)
    | .fExit => (⟨st, [], [], true, .noMsg⟩, .halt)
    | .fUnknown => (⟨st, [], [], false, .unknownCommand t⟩, .cont)

/-- Result of one command of a line: state, outputs (including the status
    line), frames sent, the fcmdok flag, errormsg and how the loop
    proceeds. -/
structure CmdRes where
  st : CmdSt
  outs : List OutEvent
  sends : List SendRec
  ok : Bool
  msg : ErrMsg
  kind : StepKind
deriving Repr

/-- One iteration of handle_input's command loop: tokenize the command
    substring, dispatch it, and (unless the command returned early via
    QUIT/EXIT) append the status line `<cmd>: OK` / `<cmd>: ERROR - <msg>`
    when neither the quiet flag nor the HANDLE_INPUT_NOOK flag suppresses
    it.  The quiet test uses the flag value after the command (VERBOSE and
    QUIET take effect on their own status line). -/
def exec_cmd (env : Env) (noOk : Bool) (st : CmdSt) (text : List Char) : CmdRes :=
  let r := cmdCore env st (tokenize text)
  match r.2 with
  | .cont =>
    let outs :=
      if r.1.st.quiet = false ∧ noOk = false then
        r.1.outs ++ [.statusLine text r.1.ok r.1.msg]
      else r.1.outs
    ⟨r.1.st, outs, r.1.sends, r.1.ok, r.1.msg, .cont⟩
  | .quit => ⟨r.1.st, r.1.outs, r.1.sends, r.1.ok, r.1.msg, .quit⟩
  | .halt => ⟨r.1.st, r.1.outs, r.1.sends, r.1.ok, r.1.msg, .halt⟩

/-- Result of one handle_input call: final state, outputs, frames sent and
    the return code (0 continue, -1 QUIT, -2 EXIT). -/
structure LineRes where
  st : CmdSt
  outs : List OutEvent
  sends : List SendRec
  rc : Int
deriving Repr

/-- handle_input's loop over the command substrings of one line. -/
def lineLoop (env : Env) (noOk : Bool) : CmdSt → List (List Char) → LineRes
  | st, [] => ⟨st, [], [], 0⟩
  | st, c :: cs =>
    let r := exec_cmd env noOk st c
    match r.kind with
    | .cont =>
      let rest := lineLoop env noOk r.st cs
      ⟨rest.st, r.outs ++ rest.outs, r.sends ++ rest.sends, rest.rc⟩
    | .quit => ⟨r.st, r.outs, r.sends, -1⟩
    | .halt => ⟨r.st, r.outs, r.sends, -2⟩

/-- handle_input on one (non-HTTP) input line: split on CMD_DELIMITER into
    at most MAX_CMDS = 500 commands and run the loop.  The quiet flag is a
    local variable of handle_input and starts false on every call. -/
def handle_line (env : Env) (noOk : Bool) (st : CmdSt) (line : List Char) : LineRes :=
  lineLoop env noOk { st with quiet := false } ((splitTok cmdDelims line).take 500)

/-- The per-connection loop of tcp_server_handle_client, restricted to its
    calls into handle_input: each received line is handled with flags 0,
    and a negative return code ends the session.  State (the housecode and
    the transport call counter) persists across lines; outputs and sends
    accumulate. -/
def session (env : Env) : CmdSt → List (List Char) → CmdSt × List OutEvent × List SendRec
  | st, [] => (st, [], [])
  | st, l :: ls =>
    let r := handle_line env false st l
    if r.rc < 0 then (r.st, r.outs, r.sends)
    else
      let rest := session env r.st ls
      (rest.1, r.outs ++ rest.2.1, r.sends ++ rest.2.2)

/-- A fixed struct tm (2000-01-01 Sat 00:00:00) for closed evaluation. -/
def tm0 : Tm := ⟨0, 0, 0, 1, 0, 6, 100⟩

/-- A concrete environment whose transport always succeeds and always
    replies with a zero buffer. -/
def env0 : Env :=
  { usbOk := fun _ => true
    usbReply := fun _ => [0, 0, 0, 0, 0, 0, 0, 0]
    nowTm := tm0
    strptimeFn := fun _ _ t => t
    mktimeFn := fun _ => 0
    localtimeFn := fun _ => tm0
    undefNonzero := false }

/-- env0 with a transport whose every usb_send call fails. -/
def envFail : Env :=
  { env0 with usbOk := fun _ => false }

/-- The initial command state: default housecode 0x0000, verbose, no
    transport calls made yet. -/
def st0 : CmdSt := ⟨0, false, 0⟩

/-- Behaviour of one retry loop: at most b attempts, at least one when the
    budget is positive, one inter-attempt sleep fewer than attempts, and on
    an all-failing oracle exactly b attempts and failure. -/
lemma retryLoop_spec (f : Nat → Bool) :
    ∀ b k,
      (retryLoop f b k).1 ≤ b ∧
      (1 ≤ b → 1 ≤ (retryLoop f b k).1) ∧
      (retryLoop f b k).2.1 = (retryLoop f b k).1 - 1 ∧
      ((∀ j, j < b → f (k + j) = false) →
        (retryLoop f b k).1 = b ∧ (retryLoop f b k).2.2 = false) := by
  intro b
  induction b with
  | zero =>
    intro k
    simp [retryLoop]
  | succ n ih =>
    intro k
    by_cases hfk : f k = true
    · have hun : retryLoop f (n + 1) k = (1, 0, true) := by simp [retryLoop, hfk]
      rw [hun]
      refine ⟨by omega, by omega, by simp, ?_⟩
      intro hall
      have hz := hall 0 (Nat.succ_pos n)
      rw [Nat.add_zero, hfk] at hz
      cases hz
    · by_cases hn : n = 0
      · subst hn
        have hun : retryLoop f (0 + 1) k = (1, 0, false) := by simp [retryLoop, hfk]
        rw [hun]
        exact ⟨by omega, by omega, by simp, fun _ => ⟨rfl, rfl⟩⟩
      · have hrest := ih (k + 1)
        have hun :
            retryLoop f (n + 1) k =
              ((retryLoop f n (k + 1)).1 + 1, (retryLoop f n (k + 1)).2.1 + 1,
                (retryLoop f n (k + 1)).2.2) := by
          simp [retryLoop, hfk, hn]
        rw [hun]
        obtain ⟨h1, h2, h3, h4⟩ := hrest
        refine ⟨by omega, by omega, by simp; omega, ?_⟩
        intro hall
        have hshift : ∀ j, j < n → f (k + 1 + j) = false := by
          intro j hj
          have := hall (j + 1) (by omega)
          have he : k + (j + 1) = k + 1 + j := by omega
          rwa [he] at this
        obtain ⟨ha, hb⟩ := h4 hshift
        exact ⟨by omega, hb⟩

/-- C1 (counterexample to the claim as stated): on a transport whose every
    outbound attempt fails, usb_send with fexpectdata = true still performs
    5 inbound transfer attempts (the claim asserts no inbound attempt is
    made) while it does return a transport error. -/
theorem usb_send_inbound_despite_out_fail :
    (usb_send (fun _ => false) (fun _ => false) true).inAttempts = 5 ∧
    (usb_send (fun _ => false) (fun _ => false) true).err = true ∧
    (usb_send (fun _ => false) (fun _ => false) true).outAttempts = 5 := by
  decide

/-- C1 (amended): the outbound transfer is attempted at most USB_MAX_RETRY
    = 5 times with one USB_WAIT_ON_ERROR (250 ms) sleep between consecutive
    failed attempts; if all 5 outbound attempts fail the call returns a
    transport error, but when a reply was expected the inbound transfer is
    nevertheless still attempted. -/
theorem usb_send_retry_budget (outF inF : Nat → Bool) (e : Bool) :
    (usb_send outF inF e).outAttempts ≤ USB_MAX_RETRY ∧
    (usb_send outF inF e).outSleeps = (usb_send outF inF e).outAttempts - 1 ∧
    USB_WAIT_ON_ERROR = 250 ∧
    ((∀ k, k < USB_MAX_RETRY → outF k = false) →
      (usb_send outF inF e).err = true ∧
      (usb_send outF inF e).outAttempts = USB_MAX_RETRY ∧
      (e = true → 1 ≤ (usb_send outF inF e).inAttempts)) := by
  obtain ⟨o1, o2, o3, o4⟩ := retryLoop_spec outF USB_MAX_RETRY 0
  obtain ⟨i1, i2, i3, i4⟩ := retryLoop_spec inF USB_MAX_RETRY 0
  cases e with
  | false =>
    refine ⟨o1, o3, rfl, ?_⟩
    intro hall
    obtain ⟨ha, hb⟩ := o4 (fun j hj => by simpa using hall j hj)
    refine ⟨?_, ha, by intro h; exact absurd h (by simp)⟩
    simp [usb_send, hb]
  | true =>
    refine ⟨o1, o3, rfl, ?_⟩
    intro hall
    obtain ⟨ha, hb⟩ := o4 (fun j hj => by simpa using hall j hj)
    refine ⟨by simp [usb_send, hb], ha, ?_⟩
    intro _
    simpa [usb_send] using i2 (by decide)

/-- Witness for usb_send_retry_budget at an all-failing outbound oracle. -/
theorem usb_send_retry_budget_w :
    (usb_send (fun _ => false) (fun _ => true) true).err = true ∧
    (usb_send (fun _ => false) (fun _ => true) true).outAttempts = USB_MAX_RETRY ∧
    (true = true → 1 ≤ (usb_send (fun _ => false) (fun _ => true) true).inAttempts) :=
  (usb_send_retry_budget (fun _ => false) (fun _ => true) true).2.2.2 (fun _ _ => rfl)

/-- Valid FS20 characters have code points 49..52. -/
lemma valid4_toNat {c : Char} (h : valid4 c) : 49 ≤ c.toNat ∧ c.toNat ≤ 52 := by
  rcases h with rfl | rfl | rfl | rfl <;> decide

/-- Valid FS20 characters are not whitespace. -/
lemma valid4_not_space {c : Char} (h : valid4 c) : isspaceC c = false := by
  rcases h with rfl | rfl | rfl | rfl <;> decide

/-- The Nat value of one FS20 character pair. -/
def pvN (c1 c2 : Char) : Nat := (c1.toNat - 49) * 4 + (c2.toNat - 49)

/-- On valid characters the Int pair expression of fs20toiGo equals the Nat
    pair value, which is a nibble. -/
lemma pv_int {c1 c2 : Char} (h1 : valid4 c1) (h2 : valid4 c2) :
    ((c1.toNat : Int) - 48 - 1) * 4 + ((c2.toNat : Int) - 48 - 1) = (pvN c1 c2 : Nat) ∧
      pvN c1 c2 < 16 := by
  obtain ⟨a1, b1⟩ := valid4_toNat h1
  obtain ⟨a2, b2⟩ := valid4_toNat h2
  unfold pvN
  constructor
  · omega
  · omega

/-- Rendering a nibble and bumping the digits inverts the pair value on
    valid characters. -/
lemma render_pair {c1 c2 : Char} (h1 : valid4 c1) (h2 : valid4 c2) :
    (nibChunk (pvN c1 c2)).map bumpChar = [c1, c2] := by
  rcases h1 with rfl | rfl | rfl | rfl <;> rcases h2 with rfl | rfl | rfl | rfl <;> decide

/-- itofs20 on a 16-bit value assembled from four nibbles renders exactly
    those four nibbles in order. -/
lemma itofs20_nibbles (n1 n2 n3 n4 : Nat) (h1 : n1 < 16) (h2 : n2 < 16) (h3 : n3 < 16)
    (h4 : n4 < 16) :
    itofs20 (((n1 * 16 + n2) * 16 + n3) * 16 + n4) =
      (nibChunk n1).map bumpChar ++ (nibChunk n2).map bumpChar ++
        (nibChunk n3).map bumpChar ++ (nibChunk n4).map bumpChar := by
  have p12 : (2 : Nat) ^ 12 = 4096 := by norm_num
  have p8 : (2 : Nat) ^ 8 = 256 := by norm_num
  have p4 : (2 : Nat) ^ 4 = 16 := by norm_num
  have p0 : (2 : Nat) ^ 0 = 1 := by norm_num
  have e1 : (((n1 * 16 + n2) * 16 + n3) * 16 + n4) / 4096 % 16 = n1 := by omega
  have e2 : (((n1 * 16 + n2) * 16 + n3) * 16 + n4) / 256 % 16 = n2 := by omega
  have e3 : (((n1 * 16 + n2) * 16 + n3) * 16 + n4) / 16 % 16 = n3 := by omega
  have e4 : (((n1 * 16 + n2) * 16 + n3) * 16 + n4) / 1 % 16 = n4 := by omega
  unfold itofs20
  rw [p12, p8, p4, p0, e1, e2, e3, e4]
  simp [List.map_append]

/-- Round trip of the FS20 codec on valid strings of length 8: decoding and
    re-encoding is the identity, and the decoded value is non-negative. -/
lemma fs20_rt_aux :
    ∀ s : List Char, validFS20 s → s.length = 8 →
      0 ≤ fs20toi s ∧ itofs20 (fs20toi s).toNat = s := by
  intro s hv hlen
  rcases s with _ | ⟨a, s⟩; · simp at hlen
  rcases s with _ | ⟨b, s⟩; · simp at hlen
  rcases s with _ | ⟨c, s⟩; · simp at hlen
  rcases s with _ | ⟨d, s⟩; · simp at hlen
  rcases s with _ | ⟨e, s⟩; · simp at hlen
  rcases s with _ | ⟨f, s⟩; · simp at hlen
  rcases s with _ | ⟨g, s⟩; · simp at hlen
  rcases s with _ | ⟨h, s⟩; · simp at hlen
  rcases s with _ | ⟨i, s⟩
  swap
  · simp at hlen
  have ha : valid4 a := hv a (by simp)
  have hb : valid4 b := hv b (by simp)
  have hc : valid4 c := hv c (by simp)
  have hd : valid4 d := hv d (by simp)
  have he : valid4 e := hv e (by simp)
  have hf : valid4 f := hv f (by simp)
  have hg : valid4 g := hv g (by simp)
  have hh : valid4 h := hv h (by simp)
  obtain ⟨q1, r1⟩ := pv_int ha hb
  obtain ⟨q2, r2⟩ := pv_int hc hd
  obtain ⟨q3, r3⟩ := pv_int he hf
  obtain ⟨q4, r4⟩ := pv_int hg hh
  have hgo :
      fs20toi [a, b, c, d, e, f, g, h] =
        ((((pvN a b * 16 + pvN c d) * 16 + pvN e f) * 16 + pvN g h : Nat) : Int) := by
    unfold fs20toi
    simp only [List.length_cons, List.length_nil]
    norm_num
    simp only [fs20toiGo, valid4_not_space ha, valid4_not_space hc, valid4_not_space he,
      valid4_not_space hg, Bool.false_eq_true, if_false]
    omega
  refine ⟨by rw [hgo]; positivity, ?_⟩
  rw [hgo, Int.toNat_natCast, itofs20_nibbles _ _ _ _ r1 r2 r3 r4,
    render_pair ha hb, render_pair hc hd, render_pair he hf, render_pair hg hh]
  rfl

/-- C2 (counterexample to the claim as stated): the string 11 is a valid
    even-length FS20 string, but decoding and re-encoding it yields
    11111111, not 11, and decoding is not injective on even-length valid
    strings since 11 and 1111 both decode to 0. -/
theorem fs20_codec_cex :
    validFS20 ['1', '1'] ∧ fs20toi ['1', '1'] = 0 ∧
      itofs20 (fs20toi ['1', '1']).toNat ≠ ['1', '1'] ∧
      validFS20 ['1', '1', '1', '1'] ∧
      fs20toi ['1', '1', '1', '1'] = fs20toi ['1', '1'] ∧
      ['1', '1', '1', '1'] ≠ ['1', '1'] := by
  decide

/-- C2 (amended): for valid FS20 strings of length exactly 8 (the length
    itofs20 always produces), decoding with fs20toi and re-encoding with
    itofs20 yields the original string, and fs20toi is injective on that
    domain. -/
theorem fs20_codec_roundtrip_len8 :
    (∀ s : List Char, validFS20 s → s.length = 8 → itofs20 (fs20toi s).toNat = s) ∧
    (∀ s t : List Char, validFS20 s → s.length = 8 → validFS20 t → t.length = 8 →
      fs20toi s = fs20toi t → s = t) := by
  constructor
  · intro s hv hl
    exact (fs20_rt_aux s hv hl).2
  · intro s t hvs hls hvt hlt heq
    have h1 := (fs20_rt_aux s hvs hls).2
    have h2 := (fs20_rt_aux t hvt hlt).2
    rw [← h1, ← h2, heq]

/-- Witness for fs20_codec_roundtrip_len8 at the housecode 12341234. -/
theorem fs20_codec_roundtrip_len8_w :
    itofs20 (fs20toi ['1', '2', '3', '4', '1', '2', '3', '4']).toNat =
      ['1', '2', '3', '4', '1', '2', '3', '4'] :=
  fs20_codec_roundtrip_len8.1 ['1', '2', '3', '4', '1', '2', '3', '4'] (by decide) (by decide)

/-- A token matching one keyword under cmdcompare cannot match a keyword
    with a different lower-cased spelling. -/
lemma cmdEq_ne {s k k2 : List Char} (h : cmdEq s k = true) (hne : cmdEq k k2 = false) :
    cmdEq s k2 = false := by
  unfold cmdEq at h ⊢
  rw [eq_of_beq h]
  exact hne

/-- Dispatch of an FS20 command. -/
lemma routeFS20 {t : List Char} (env : Env) (st : CmdSt) (rest : List (List Char))
    (h : cmdEq t kwFS20 = true) :
    cmdCore env st (t :: rest) = (fs20Run env st rest, .cont) := by
  have e1 : cmdEq t kwHELP = false := cmdEq_ne h (by decide)
  have e2 : cmdEq t kwH = false := cmdEq_ne h (by decide)
  have e3 : cmdEq t kwQm = false := cmdEq_ne h (by decide)
  have e4 : cmdEq t kwVERSION = false := cmdEq_ne h (by decide)
  have e5 : cmdEq t kwVERBOSE = false := cmdEq_ne h (by decide)
  have e6 : cmdEq t kwQUIET = false := cmdEq_ne h (by decide)
  have hs : cmdSelect t = .fFS20 := by simp [cmdSelect, e1, e2, e3, e4, e5, e6, h]
  simp [cmdCore, hs]

/-- Dispatch of an IT / InterTechno command. -/
lemma routeIT {t : List Char} (env : Env) (st : CmdSt) (rest : List (List Char))
    (h : cmdEq t kwIT = true ∨ cmdEq t kwInterTechno = true) :
    cmdCore env st (t :: rest) = (itRun env st rest, .cont) := by
  cases h with
  | inl h =>
    have e1 : cmdEq t kwHELP = false := cmdEq_ne h (by decide)
    have e2 : cmdEq t kwH = false := cmdEq_ne h (by decide)
    have e3 : cmdEq t kwQm = false := cmdEq_ne h (by decide)
    have e4 : cmdEq t kwVERSION = false := cmdEq_ne h (by decide)
    have e5 : cmdEq t kwVERBOSE = false := cmdEq_ne h (by decide)
    have e6 : cmdEq t kwQUIET = false := cmdEq_ne h (by decide)
    have e7 : cmdEq t kwFS20 = false := cmdEq_ne h (by decide)
    have e8 : cmdEq t kwUNI = false := cmdEq_ne h (by decide)
    have hs : cmdSelect t = .fIt := by simp [cmdSelect, e1, e2, e3, e4, e5, e6, e7, e8, h]
    simp [cmdCore, hs]
  | inr h =>
    have e1 : cmdEq t kwHELP = false := cmdEq_ne h (by decide)
    have e2 : cmdEq t kwH = false := cmdEq_ne h (by decide)
    have e3 : cmdEq t kwQm = false := cmdEq_ne h (by decide)
    have e4 : cmdEq t kwVERSION = false := cmdEq_ne h (by decide)
    have e5 : cmdEq t kwVERBOSE = false := cmdEq_ne h (by decide)
    have e6 : cmdEq t kwQUIET = false := cmdEq_ne h (by decide)
    have e7 : cmdEq t kwFS20 = false := cmdEq_ne h (by decide)
    have e8 : cmdEq t kwUNI = false := cmdEq_ne h (by decide)
    have hs : cmdSelect t = .fIt := by simp [cmdSelect, e1, e2, e3, e4, e5, e6, e7, e8, h]
    simp [cmdCore, hs]

/-- Dispatch of a SCENE command. -/
lemma routeSCENE {t : List Char} (env : Env) (st : CmdSt) (rest : List (List Char))
    (h : cmdEq t kwSCENE = true) :
    cmdCore env st (t :: rest) = (sceneRun env st rest, .cont) := by
  have e1 : cmdEq t kwHELP = false := cmdEq_ne h (by decide)
  have e2 : cmdEq t kwH = false := cmdEq_ne h (by decide)
  have e3 : cmdEq t kwQm = false := cmdEq_ne h (by decide)
  have e4 : cmdEq t kwVERSION = false := cmdEq_ne h (by decide)
  have e5 : cmdEq t kwVERBOSE = false := cmdEq_ne h (by decide)
  have e6 : cmdEq t kwQUIET = false := cmdEq_ne h (by decide)
  have e7 : cmdEq t kwFS20 = false := cmdEq_ne h (by decide)
  have e8 : cmdEq t kwUNI = false := cmdEq_ne h (by decide)
  have e9 : cmdEq t kwIT = false := cmdEq_ne h (by decide)
  have e10 : cmdEq t kwInterTechno = false := cmdEq_ne h (by decide)
  have hs : cmdSelect t = .fScene := by
    simp [cmdSelect, e1, e2, e3, e4, e5, e6, e7, e8, e9, e10, h]
  simp [cmdCore, hs]

/-- Dispatch of a GET command. -/
lemma routeGET {t : List Char} (env : Env) (st : CmdSt) (rest : List (List Char))
    (h : cmdEq t kwGET = true) :
    cmdCore env st (t :: rest) = (getRun env st rest, .cont) := by
  have e1 : cmdEq t kwHELP = false := cmdEq_ne h (by decide)
  have e2 : cmdEq t kwH = false := cmdEq_ne h (by decide)
  have e3 : cmdEq t kwQm = false := cmdEq_ne h (by decide)
  have e4 : cmdEq t kwVERSION = false := cmdEq_ne h (by decide)
  have e5 : cmdEq t kwVERBOSE = false := cmdEq_ne h (by decide)
  have e6 : cmdEq t kwQUIET = false := cmdEq_ne h (by decide)
  have e7 : cmdEq t kwFS20 = false := cmdEq_ne h (by decide)
  have e8 : cmdEq t kwUNI = false := cmdEq_ne h (by decide)
  have e9 : cmdEq t kwIT = false := cmdEq_ne h (by decide)
  have e10 : cmdEq t kwInterTechno = false := cmdEq_ne h (by decide)
  have e11 : cmdEq t kwSCENE = false := cmdEq_ne h (by decide)
  have hs : cmdSelect t = .fGet := by
    simp [cmdSelect, e1, e2, e3, e4, e5, e6, e7, e8, e9, e10, e11, h]
  simp [cmdCore, hs]

/-- Dispatch of a SET command. -/
lemma routeSET {t : List Char} (env : Env) (st : CmdSt) (rest : List (List Char))
    (h : cmdEq t kwSET = true) :
    cmdCore env st (t :: rest) = (setRun env st rest, .cont) := by
  have e1 : cmdEq t kwHELP = false := cmdEq_ne h (by decide)
  have e2 : cmdEq t kwH = false := cmdEq_ne h (by decide)
  have e3 : cmdEq t kwQm = false := cmdEq_ne h (by decide)
  have e4 : cmdEq t kwVERSION = false := cmdEq_ne h (by decide)
  have e5 : cmdEq t kwVERBOSE = false := cmdEq_ne h (by decide)
  have e6 : cmdEq t kwQUIET = false := cmdEq_ne h (by decide)
  have e7 : cmdEq t kwFS20 = false := cmdEq_ne h (by decide)
  have e8 : cmdEq t kwUNI = false := cmdEq_ne h (by decide)
  have e9 : cmdEq t kwIT = false := cmdEq_ne h (by decide)
  have e10 : cmdEq t kwInterTechno = false := cmdEq_ne h (by decide)
  have e11 : cmdEq t kwSCENE = false := cmdEq_ne h (by decide)
  have e12 : cmdEq t kwGET = false := cmdEq_ne h (by decide)
  have hs : cmdSelect t = .fSet := by
    simp [cmdSelect, e1, e2, e3, e4, e5, e6, e7, e8, e9, e10, e11, e12, h]
  simp [cmdCore, hs]

/-- The dispatch of a command whose dispatcher kind is cont, read off the
    status-line step. -/
lemma exec_cmd_cont (env : Env) (noOk : Bool) (st : CmdSt) (text : List Char) (h : HRes)
    (hc : cmdCore env st (tokenize text) = (h, .cont)) :
    exec_cmd env noOk st text =
      ⟨h.st,
        if h.st.quiet = false ∧ noOk = false then h.outs ++ [.statusLine text h.ok h.msg]
        else h.outs,
        h.sends, h.ok, h.msg, .cont⟩ := by
  unfold exec_cmd
  rw [hc]

/-- C7 (confirmed): a SCENE command whose strtol value lies outside 1..254
    fails with the parameter-out-of-range message and performs no transport
    send (the state, including the transport call counter, is unchanged);
    for a value within 1..254 exactly the frame 0x0f, scene is sent. -/
theorem scene_param_range (env : Env) (noOk : Bool) (st : CmdSt)
    (text t tok : List Char) (rest : List (List Char))
    (htok : tokenize text = t :: tok :: rest) (ht : cmdEq t kwSCENE = true) :
    (((strtol10 tok).1 < 1 ∨ 254 < (strtol10 tok).1) →
      (exec_cmd env noOk st text).sends = [] ∧
      (exec_cmd env noOk st text).ok = false ∧
      (exec_cmd env noOk st text).msg = ErrMsg.sceneRange ∧
      (exec_cmd env noOk st text).st = st) ∧
    (1 ≤ (strtol10 tok).1 → (strtol10 tok).1 ≤ 254 →
      (exec_cmd env noOk st text).sends =
        [([0x0f, (strtol10 tok).1, 0, 0, 0, 0, 0, 0], false)]) := by
  have hc : cmdCore env st (tokenize text) = (sceneRun env st (tok :: rest), .cont) := by
    rw [htok]; exact routeSCENE env st _ ht
  rw [exec_cmd_cont env noOk st text _ hc]
  constructor
  · intro hout
    have hcond : ¬ (1 ≤ (strtol10 tok).1 ∧ (strtol10 tok).1 ≤ 254) := by omega
    simp [sceneRun, hcond]
  · intro h1 h2
    have hcond : (1 ≤ (strtol10 tok).1 ∧ (strtol10 tok).1 ≤ 254) := ⟨h1, h2⟩
    have hby : byteOf (1 * (strtol10 tok).1) = (strtol10 tok).1 := by
      unfold byteOf; rw [one_mul]; exact Int.emod_eq_of_lt (by omega) (by omega)
    simp only [sceneRun, if_pos hcond, hby]
    split_ifs <;> simp

/-- Witness for scene_param_range: SCENE 300 is rejected without a send. -/
theorem scene_param_range_w :
    (exec_cmd env0 false st0 ['S', 'C', 'E', 'N', 'E', ' ', '3', '0', '0']).sends = [] ∧
    (exec_cmd env0 false st0 ['S', 'C', 'E', 'N', 'E', ' ', '3', '0', '0']).ok = false ∧
    (exec_cmd env0 false st0 ['S', 'C', 'E', 'N', 'E', ' ', '3', '0', '0']).msg =
      ErrMsg.sceneRange ∧
    (exec_cmd env0 false st0 ['S', 'C', 'E', 'N', 'E', ' ', '3', '0', '0']).st = st0 :=
  (scene_param_range env0 false st0 ['S', 'C', 'E', 'N', 'E', ' ', '3', '0', '0']
    ['S', 'C', 'E', 'N', 'E'] ['3', '0', '0'] [] (by decide) (by decide)).1 (by decide)

/-- C9 (confirmed): an FS20 command whose cmd token matches none of the
    named keywords and parses to 0 via strtol without errno (for instance a
    token with no leading digits) is treated as dim level 0: the frame is
    sent with command byte 0 and, on a successful transport, the command
    reports success. -/
theorem fs20_nonkeyword_dim0 (env : Env) (noOk : Bool) (st : CmdSt)
    (text t addrTok cmdTok : List Char) (rest : List (List Char))
    (htok : tokenize text = t :: addrTok :: cmdTok :: rest)
    (ht : cmdEq t kwFS20 = true)
    (haddr : 0 ≤ fs20toi addrTok)
    (hk1 : cmdEq cmdTok kwON = false) (hk2 : cmdEq cmdTok kwUP = false)
    (hk3 : cmdEq cmdTok kwOPEN = false) (hk4 : cmdEq cmdTok kwOFF = false)
    (hk5 : cmdEq cmdTok kwDOWN = false) (hk6 : cmdEq cmdTok kwCLOSE = false)
    (hk7 : cmdEq cmdTok kwTOGGLE = false) (hk8 : cmdEq cmdTok kwBRIGHT = false)
    (hk9 : cmdEq cmdTok kwPLUS = false) (hk10 : cmdEq cmdTok kwDARK = false)
    (hk11 : cmdEq cmdTok kwMINUS = false)
    (hs : strtol10 cmdTok = (0, false))
    (hquiet : st.quiet = false) (hnoOk : noOk = false)
    (husb : env.usbOk st.usbCount = true) :
    fs20cmdDecode cmdTok = 0 ∧
    (exec_cmd env noOk st text).sends =
      [([1, byteOf (st.housecode / 256), byteOf st.housecode, byteOf (fs20toi addrTok),
         0, 0, 3, 0], false)] ∧
    (exec_cmd env noOk st text).ok = true ∧
    (exec_cmd env noOk st text).outs = [.statusLine text true .noMsg] := by
  have hdec : fs20cmdDecode cmdTok = 0 := by
    unfold fs20cmdDecode
    rw [hs]
    simp [hk1, hk2, hk3, hk4, hk5, hk6, hk7, hk8, hk9, hk10, hk11]
  have hc : cmdCore env st (tokenize text) =
      (fs20Run env st (addrTok :: cmdTok :: rest), .cont) := by
    rw [htok]; exact routeFS20 env st _ ht
  rw [exec_cmd_cont env noOk st text _ hc]
  refine ⟨hdec, ?_⟩
  have hb0 : byteOf (0 : Int) = 0 := by decide
  have hrun : fs20Run env st (addrTok :: cmdTok :: rest) =
      ⟨{ st with usbCount := st.usbCount + 1 }, [],
        [([1, byteOf (st.housecode / 256), byteOf st.housecode, byteOf (fs20toi addrTok),
           0, 0, 3, 0], false)], true, .noMsg⟩ := by
    simp only [fs20Run, hdec, hb0]
    rw [if_pos haddr]
    simp [usbSendAt, husb]
  rw [hrun]
  simp [hquiet, hnoOk]

/-- Witness for fs20_nonkeyword_dim0 at FS20 1234 XYZ. -/
theorem fs20_nonkeyword_dim0_w :
    fs20cmdDecode ['X', 'Y', 'Z'] = 0 ∧
    (exec_cmd env0 false st0
        ['F', 'S', '2', '0', ' ', '1', '2', '3', '4', ' ', 'X', 'Y', 'Z']).sends =
      [([1, byteOf (st0.housecode / 256), byteOf st0.housecode,
         byteOf (fs20toi ['1', '2', '3', '4']), 0, 0, 3, 0], false)] ∧
    (exec_cmd env0 false st0
        ['F', 'S', '2', '0', ' ', '1', '2', '3', '4', ' ', 'X', 'Y', 'Z']).ok = true ∧
    (exec_cmd env0 false st0
        ['F', 'S', '2', '0', ' ', '1', '2', '3', '4', ' ', 'X', 'Y', 'Z']).outs =
      [.statusLine ['F', 'S', '2', '0', ' ', '1', '2', '3', '4', ' ', 'X', 'Y', 'Z'] true .noMsg] :=
  fs20_nonkeyword_dim0 env0 false st0
    ['F', 'S', '2', '0', ' ', '1', '2', '3', '4', ' ', 'X', 'Y', 'Z']
    ['F', 'S', '2', '0'] ['1', '2', '3', '4'] ['X', 'Y', 'Z'] []
    (by decide) (by decide) (by decide) (by decide) (by decide) (by decide) (by decide)
    (by decide) (by decide) (by decide) (by decide) (by decide) (by decide) (by decide)
    (by decide) (by decide) (by decide) (by decide)

/-- C10 (confirmed): a GET TEMP command whose transport exchange succeeds
    but whose reply frame has byte 0 different from 0xfd writes no
    temperature line, yet the command still reports success: its status line
    ends in OK and the invalid reply is not an error. -/
theorem get_temp_invalid_reply (env : Env) (st : CmdSt)
    (text t tok : List Char) (rest : List (List Char))
    (htok : tokenize text = t :: tok :: rest)
    (ht : cmdEq t kwGET = true)
    (htemp : cmdEq tok kwTEMP = true ∨ cmdEq tok kwTEMPERATURE = true)
    (husb : env.usbOk st.usbCount = true)
    (hrep : bufGet (env.usbReply st.usbCount) 0 ≠ 0xfd)
    (hquiet : st.quiet = false) :
    (exec_cmd env false st text).outs = [.statusLine text true .noMsg] ∧
    (exec_cmd env false st text).ok = true ∧
    (exec_cmd env false st text).sends = [([0x0c, 0, 0, 0, 0, 0, 0, 0], true)] := by
  have hclock : cmdEq tok kwCLOCK = false := by
    cases htemp with
    | inl h => exact cmdEq_ne h (by decide)
    | inr h => exact cmdEq_ne h (by decide)
  have htime : cmdEq tok kwTIME = false := by
    cases htemp with
    | inl h => exact cmdEq_ne h (by decide)
    | inr h => exact cmdEq_ne h (by decide)
  have hc : cmdCore env st (tokenize text) = (getRun env st (tok :: rest), .cont) := by
    rw [htok]; exact routeGET env st _ ht
  rw [exec_cmd_cont env false st text _ hc]
  have hrun : getRun env st (tok :: rest) =
      ⟨{ st with usbCount := st.usbCount + 1 }, [], [([0x0c, 0, 0, 0, 0, 0, 0, 0], true)],
        true, .noMsg⟩ := by
    cases htemp with
    | inl h =>
      simp only [getRun, hclock, htime]
      simp [h, usbSendAt, husb, hrep]
    | inr h =>
      simp only [getRun, hclock, htime]
      simp [h, usbSendAt, husb, hrep]
  rw [hrun]
  simp [hquiet]

/-- Witness for get_temp_invalid_reply: GET TEMP against a transport whose
    reply starts with byte 0. -/
theorem get_temp_invalid_reply_w :
    (exec_cmd env0 false st0 ['G', 'E', 'T', ' ', 'T', 'E', 'M', 'P']).outs =
      [.statusLine ['G', 'E', 'T', ' ', 'T', 'E', 'M', 'P'] true .noMsg] ∧
    (exec_cmd env0 false st0 ['G', 'E', 'T', ' ', 'T', 'E', 'M', 'P']).ok = true ∧
    (exec_cmd env0 false st0 ['G', 'E', 'T', ' ', 'T', 'E', 'M', 'P']).sends =
      [([0x0c, 0, 0, 0, 0, 0, 0, 0], true)] :=
  get_temp_invalid_reply env0 st0 ['G', 'E', 'T', ' ', 'T', 'E', 'M', 'P']
    ['G', 'E', 'T'] ['T', 'E', 'M', 'P'] [] (by decide) (by decide) (by decide)
    (by decide) (by decide) (by decide)

/-- An accepted InterTechno cmd value lies within 0..248 and its maincmd is
    5 or 6. -/
lemma it_dim_bound (t : List Char) (h : 0 ≤ (itDecode t).1) :
    (itDecode t).1 ≤ 248 ∧ ((itDecode t).2 = 5 ∨ (itDecode t).2 = 6) := by
  unfold itDecode at h ⊢
  split_ifs at h ⊢ <;> simp_all <;> split_ifs at h ⊢ <;> simp_all

/-- C4 (counterexample to the claim as stated): for the non-dim command
    IT A 1 ON the frame sent has byte 4 equal to 0x01, not 0 as the claim
    asserts for non-dim commands. -/
theorem it_on_byte4_cex :
    (exec_cmd env0 false st0 ['I', 'T', ' ', 'A', ' ', '1', ' ', 'O', 'N']).sends =
      [([5, 0, 1, 6, 1, 0, 0, 0], false)] ∧
    itDecode ['O', 'N'] = (1, 6) := by
  decide

/-- C4 (amended): for every accepted InterTechno command with letter code
    A..P, channel 1..16 and a recognized cmd, the frame is byte0 = 0x05,
    byte1 = code*16+(addr-1), byte2 = value, byte3 = maincmd, and byte4 is
    0x01 unconditionally (for dim and non-dim commands alike). -/
theorem it_frame_byte4_always (env : Env) (noOk : Bool) (st : CmdSt)
    (text t codeTok addrTok cmdTok : List Char) (rest : List (List Char))
    (c : Char) (cr : List Char)
    (htok : tokenize text = t :: codeTok :: addrTok :: cmdTok :: rest)
    (ht : cmdEq t kwIT = true ∨ cmdEq t kwInterTechno = true)
    (hcode : codeTok = c :: cr)
    (hA : 'A' ≤ ucChar c) (hP : ucChar c ≤ 'P')
    (herr : (strtol10 addrTok).2 = false)
    (h1 : 1 ≤ (strtol10 addrTok).1) (h16 : (strtol10 addrTok).1 ≤ 16)
    (hcmd : 0 ≤ (itDecode cmdTok).1) :
    (exec_cmd env noOk st text).sends =
      [([5, (((ucChar c).toNat : Int) - 65) * 16 + ((strtol10 addrTok).1 - 1),
         (itDecode cmdTok).1, (itDecode cmdTok).2, 1, 0, 0, 0], false)] := by
  have h65 : 65 ≤ (ucChar c).toNat := hA
  have h80 : (ucChar c).toNat ≤ 80 := hP
  have hAZ : 'A' ≤ ucChar c ∧ ucChar c ≤ 'Z' := ⟨hA, le_trans hP (by decide)⟩
  obtain ⟨hd248, hd56⟩ := it_dim_bound cmdTok hcmd
  have hb1 : byteOf ((((ucChar c).toNat : Int) - 65) * 16 + ((strtol10 addrTok).1 - 1)) =
      (((ucChar c).toNat : Int) - 65) * 16 + ((strtol10 addrTok).1 - 1) := by
    unfold byteOf
    exact Int.emod_eq_of_lt (by omega) (by omega)
  have hb2 : byteOf (itDecode cmdTok).1 = (itDecode cmdTok).1 := by
    unfold byteOf
    exact Int.emod_eq_of_lt (by omega) (by omega)
  have hb3 : byteOf (itDecode cmdTok).2 = (itDecode cmdTok).2 := by
    unfold byteOf
    rcases hd56 with h | h <;> rw [h] <;> decide
  have hc2 : cmdCore env st (tokenize text) =
      (itRun env st (codeTok :: addrTok :: cmdTok :: rest), .cont) := by
    rw [htok]; exact routeIT env st _ ht
  rw [exec_cmd_cont env noOk st text _ hc2]
  have hcond : (strtol10 addrTok).2 = false ∧ 1 ≤ (strtol10 addrTok).1 ∧
      (strtol10 addrTok).1 ≤ 16 := ⟨herr, h1, h16⟩
  have hrun : (itRun env st (codeTok :: addrTok :: cmdTok :: rest)).sends =
      [([5, (((ucChar c).toNat : Int) - 65) * 16 + ((strtol10 addrTok).1 - 1),
         (itDecode cmdTok).1, (itDecode cmdTok).2, 1, 0, 0, 0], false)] := by
    rw [hcode]
    simp only [itRun]
    rw [if_pos hAZ, if_pos hcond, if_pos hcmd]
    simp [usbSendAt, hb1, hb2, hb3]
    split_ifs <;> simp
  simp [hrun]

/-- C5 (counterexample to the claim as stated): the even-length string 55
    contains characters outside '1'..'4', yet fs20toi accepts it (value 20)
    and SET HOUSECODE 55 succeeds and updates the housecode to 20 instead of
    reporting an error. -/
theorem fs20_chars_not_validated_cex :
    fs20toi ['5', '5'] = 20 ∧
    (exec_cmd env0 false st0
      ['S', 'E', 'T', ' ', 'H', 'O', 'U', 'S', 'E', 'C', 'O', 'D', 'E', ' ', '5', '5']).st.housecode
      = 20 ∧
    (exec_cmd env0 false st0
      ['S', 'E', 'T', ' ', 'H', 'O', 'U', 'S', 'E', 'C', 'O', 'D', 'E', ' ', '5', '5']).ok =
      true := by
  decide

/-- C5 (amended): fs20toi rejects exactly the odd-length strings and the
    strings whose computed value is negative; it does not check that
    characters lie in '1'..'4'.  A SET HOUSECODE argument with negative
    decode is rejected without touching the housecode, one with non-negative
    decode (such as 55) replaces the housecode; an FS20 address with
    negative decode is rejected without building a frame. -/
theorem fs20_addr_validation (env : Env) (noOk : Bool) (st : CmdSt)
    (text t sub hcTok : List Char) (rest : List (List Char))
    (htok : tokenize text = t :: sub :: hcTok :: rest)
    (ht : cmdEq t kwSET = true) (hsub : cmdEq sub kwHOUSECODE = true) :
    (∀ s : List Char, s.length % 2 = 1 → fs20toi s = -1) ∧
    (fs20toi hcTok < 0 →
      (exec_cmd env noOk st text).st.housecode = st.housecode ∧
      (exec_cmd env noOk st text).ok = false ∧
      (exec_cmd env noOk st text).msg = ErrMsg.hcWrong hcTok ∧
      (exec_cmd env noOk st text).sends = []) ∧
    (0 ≤ fs20toi hcTok →
      (exec_cmd env noOk st text).st.housecode = fs20toi hcTok ∧
      (exec_cmd env noOk st text).ok = true ∧
      (exec_cmd env noOk st text).msg = ErrMsg.noMsg) ∧
    (∀ (text2 t2 addrTok cmdTok : List Char) (rest2 : List (List Char)),
      tokenize text2 = t2 :: addrTok :: cmdTok :: rest2 →
      cmdEq t2 kwFS20 = true → fs20toi addrTok < 0 →
      (exec_cmd env noOk st text2).sends = [] ∧
      (exec_cmd env noOk st text2).ok = false ∧
      (exec_cmd env noOk st text2).msg = ErrMsg.wrongAddr addrTok) := by
  have hclock : cmdEq sub kwCLOCK = false := cmdEq_ne hsub (by decide)
  have htime : cmdEq sub kwTIME = false := cmdEq_ne hsub (by decide)
  have hc : cmdCore env st (tokenize text) = (setRun env st (sub :: hcTok :: rest), .cont) := by
    rw [htok]; exact routeSET env st _ ht
  have hx := exec_cmd_cont env noOk st text _ hc
  refine ⟨?_, ?_, ?_, ?_⟩
  · intro s hodd
    unfold fs20toi
    rw [if_pos (by omega)]
  · intro hneg
    rw [hx]
    have hrun : setRun env st (sub :: hcTok :: rest) =
        ⟨st, [], [], false, .hcWrong hcTok⟩ := by
      simp only [setRun, hclock, htime, hsub]
      simp
      omega
    rw [hrun]
    simp
  · intro hpos
    rw [hx]
    have hrun : setRun env st (sub :: hcTok :: rest) =
        ⟨{ st with housecode := fs20toi hcTok }, [], [], true, .noMsg⟩ := by
      simp only [setRun, hclock, htime, hsub]
      simp [hpos]
    rw [hrun]
    simp
  · intro text2 t2 addrTok cmdTok rest2 htok2 ht2 hneg
    have hc2 : cmdCore env st (tokenize text2) =
        (fs20Run env st (addrTok :: cmdTok :: rest2), .cont) := by
      rw [htok2]; exact routeFS20 env st _ ht2
    rw [exec_cmd_cont env noOk st text2 _ hc2]
    have hrun : fs20Run env st (addrTok :: cmdTok :: rest2) =
        ⟨st, [], [], false, .wrongAddr addrTok⟩ := by
      simp only [fs20Run]
      rw [if_neg (by omega)]
    rw [hrun]
    simp

/-- Witness for fs20_addr_validation: odd-length 123 is rejected by fs20toi
    and SET HOUSECODE 55 is accepted with housecode fs20toi 55. -/
theorem fs20_addr_validation_w :
    fs20toi ['1', '2', '3'] = -1 ∧
    (exec_cmd env0 false st0
      ['S', 'E', 'T', ' ', 'H', 'O', 'U', 'S', 'E', 'C', 'O', 'D', 'E', ' ', '5', '5']).st.housecode
      = fs20toi ['5', '5'] ∧
    (exec_cmd env0 false st0
      ['S', 'E', 'T', ' ', 'H', 'O', 'U', 'S', 'E', 'C', 'O', 'D', 'E', ' ', '5', '5']).ok = true ∧
    (exec_cmd env0 false st0
      ['S', 'E', 'T', ' ', 'H', 'O', 'U', 'S', 'E', 'C', 'O', 'D', 'E', ' ', '5', '5']).msg =
      ErrMsg.noMsg :=
  ⟨(fs20_addr_validation env0 false st0
      ['S', 'E', 'T', ' ', 'H', 'O', 'U', 'S', 'E', 'C', 'O', 'D', 'E', ' ', '5', '5']
      ['S', 'E', 'T'] ['H', 'O', 'U', 'S', 'E', 'C', 'O', 'D', 'E'] ['5', '5'] []
      (by decide) (by decide) (by decide)).1 ['1', '2', '3'] (by decide),
   (fs20_addr_validation env0 false st0
      ['S', 'E', 'T', ' ', 'H', 'O', 'U', 'S', 'E', 'C', 'O', 'D', 'E', ' ', '5', '5']
      ['S', 'E', 'T'] ['H', 'O', 'U', 'S', 'E', 'C', 'O', 'D', 'E'] ['5', '5'] []
      (by decide) (by decide) (by decide)).2.2.1 (by decide)⟩

/-- C3 (code_bug): set_time returns 0 on a transport failure and has no
    return statement on the all-success path; the caller checks
    set_time(...) != 0, so a SET CLOCK whose first frame send fails aborts
    the remaining frames (correct) but is then reported as OK instead of a
    USB communication error (wrong).  On a successful transport exactly the
    three claimed frames are sent, in order, and the return value is
    indeterminate. -/
theorem set_time_return_bug :
    (set_time envFail st0 tm0).2.2 = CRet.val 0 ∧
    (set_time envFail st0 tm0).2.1 = [([8, 0, 0, 0, 1, 1, 6, 0], false)] ∧
    (exec_cmd envFail false st0 ['S', 'E', 'T', ' ', 'C', 'L', 'O', 'C', 'K']).ok = true ∧
    (exec_cmd envFail false st0 ['S', 'E', 'T', ' ', 'C', 'L', 'O', 'C', 'K']).outs =
      [.statusLine ['S', 'E', 'T', ' ', 'C', 'L', 'O', 'C', 'K'] true .noMsg] ∧
    (exec_cmd envFail false st0 ['S', 'E', 'T', ' ', 'C', 'L', 'O', 'C', 'K']).sends =
      [([8, 0, 0, 0, 1, 1, 6, 0], false)] ∧
    (set_time env0 st0 tm0).2.1 =
      [([8, 0, 0, 0, 1, 1, 6, 0], false), ([0, 0, 13, 0, 0, 0, 0, 0], false),
       ([6, 2, 1, 2, 0, 0, 0, 0], false)] ∧
    (set_time env0 st0 tm0).2.2 = CRet.undef := by
  decide

/-- Witness for it_frame_byte4_always at IT A 1 ON. -/
theorem it_frame_byte4_always_w :
    (exec_cmd env0 false st0 ['I', 'T', ' ', 'A', ' ', '1', ' ', 'O', 'N']).sends =
      [([5, (((ucChar 'A').toNat : Int) - 65) * 16 + ((strtol10 ['1']).1 - 1),
         (itDecode ['O', 'N']).1, (itDecode ['O', 'N']).2, 1, 0, 0, 0], false)] :=
  it_frame_byte4_always env0 false st0 ['I', 'T', ' ', 'A', ' ', '1', ' ', 'O', 'N']
    ['I', 'T'] ['A'] ['1'] ['O', 'N'] [] 'A' []
    (by decide) (Or.inl (by decide)) (by decide) (by decide) (by decide) (by decide)
    (by decide) (by decide) (by decide)



lemma set_time_quiet (env : Env) (st : CmdSt) (t : Tm) :
    (set_time env st t).1.quiet = st.quiet := by
  simp only [set_time, usbSendAt]
  split_ifs <;> rfl

lemma get_time_quiet (env : Env) (st : CmdSt) :
    (get_time env st).1.quiet = st.quiet := by
  simp only [get_time, usbSendAt]
  split_ifs <;> rfl

lemma fs20Run_facts (env : Env) (st : CmdSt) (toks : List (List Char)) :
    (fs20Run env st toks).outs = [] ∧ (fs20Run env st toks).st.quiet = st.quiet := by
  rcases toks with _ | ⟨a, _ | ⟨b, r⟩⟩ <;> simp only [fs20Run, usbSendAt] <;>
    first
      | (split_ifs <;> simp)
      | simp

lemma uniRun_facts (env : Env) (st : CmdSt) (toks : List (List Char)) :
    (uniRun env st toks).outs = [] ∧ (uniRun env st toks).st.quiet = st.quiet := by
  rcases toks with _ | ⟨a, _ | ⟨b, r⟩⟩ <;> simp only [uniRun, usbSendAt] <;>
    first
      | (split_ifs <;> simp)
      | simp

lemma itRun_facts (env : Env) (st : CmdSt) (toks : List (List Char)) :
    (itRun env st toks).outs = [] ∧ (itRun env st toks).st.quiet = st.quiet := by
  rcases toks with _ | ⟨a, r⟩
  · simp [itRun]
  · rcases a with _ | ⟨c, cr⟩
    · simp [itRun]
    · rcases r with _ | ⟨b, _ | ⟨d, r3⟩⟩ <;> simp only [itRun, usbSendAt] <;>
        (split_ifs <;> simp)

lemma sceneRun_facts (env : Env) (st : CmdSt) (toks : List (List Char)) :
    (sceneRun env st toks).outs = [] ∧ (sceneRun env st toks).st.quiet = st.quiet := by
  rcases toks with _ | ⟨a, r⟩ <;> simp only [sceneRun, usbSendAt] <;>
    first
      | (split_ifs <;> simp)
      | simp

lemma getRun_facts (env : Env) (st : CmdSt) (toks : List (List Char)) :
    ((getRun env st toks).outs.all fun e => !isStatusEv e) = true ∧
    (getRun env st toks).st.quiet = st.quiet := by
  rcases toks with _ | ⟨t, r⟩ <;> simp only [getRun, usbSendAt] <;>
    first
      | (split_ifs <;> simp [isStatusEv, get_time_quiet])
      | simp [isStatusEv]

lemma setClockFinal_facts (env : Env) (st : CmdSt) (acc : List SendRec) (ti : Tm) :
    (setClockFinal env st acc ti).outs = [] ∧
    (setClockFinal env st acc ti).st.quiet = st.quiet := by
  simp only [setClockFinal]
  split_ifs <;> simp [set_time_quiet]

lemma setClockAuto_facts (env : Env) (st : CmdSt) :
    (setClockAuto env st).outs = [] ∧ (setClockAuto env st).st.quiet = st.quiet := by
  simp only [setClockAuto]
  set r1 := set_time env st { env.nowTm with sec := 0 } with hr1
  set g := get_time env r1.1 with hg
  have hq1 : r1.1.quiet = st.quiet := by rw [hr1]; exact set_time_quiet env st _
  have hq2 : g.1.quiet = r1.1.quiet := by rw [hg]; exact get_time_quiet env r1.1
  split_ifs <;> simp [setClockFinal_facts, hq1, hq2]

lemma setClockRun_facts (env : Env) (st : CmdSt) (rest : List (List Char)) :
    (setClockRun env st rest).outs = [] ∧ (setClockRun env st rest).st.quiet = st.quiet := by
  rcases rest with _ | ⟨pt, r⟩
  · exact setClockFinal_facts env st [] env.nowTm
  · simp only [setClockRun]
    split_ifs <;>
      first
        | exact setClockFinal_facts env st [] _
        | exact setClockAuto_facts env st
        | simp

lemma setRun_facts (env : Env) (st : CmdSt) (toks : List (List Char)) :
    (setRun env st toks).outs = [] ∧ (setRun env st toks).st.quiet = st.quiet := by
  rcases toks with _ | ⟨t, rest⟩
  · simp [setRun]
  · simp only [setRun]
    split_ifs with h1 h2
    · exact setClockRun_facts env st rest
    · rcases rest with _ | ⟨h3, r3⟩
      · simp
      · dsimp only
        split_ifs <;> simp
    · simp

lemma waitRun_facts (st : CmdSt) (toks : List (List Char)) :
    (waitRun st toks).outs = [] ∧ (waitRun st toks).st.quiet = st.quiet := by
  rcases toks with _ | ⟨a, r⟩ <;> simp [waitRun]

def firstTokIsVerbose : List (List Char) → Bool
  | [] => false
  | t :: _ => cmdSelect t == CmdFamily.fVerbose

lemma cmdCore_quiet_status (env : Env) (st : CmdSt) (toks : List (List Char))
    (hq : st.quiet = true) (hv : firstTokIsVerbose toks = false) :
    ((cmdCore env st toks).1.outs.all fun e => !isStatusEv e) = true ∧
    (cmdCore env st toks).1.st.quiet = true := by
  cases toks with
  | nil => simp [cmdCore, hq]
  | cons t rest =>
    have hnv : cmdSelect t ≠ CmdFamily.fVerbose := by
      intro hx
      rw [show firstTokIsVerbose (t :: rest) = (cmdSelect t == CmdFamily.fVerbose) from rfl,
        hx] at hv
      cases hv
    cases hsel : cmdSelect t <;> simp only [cmdCore, hsel]
    · simp [isStatusEv, hq]
    · simp [isStatusEv, hq]
    · exact absurd hsel hnv
    · simp
    · obtain ⟨o, qq⟩ := fs20Run_facts env st rest
      exact ⟨by simp [o], by rw [qq, hq]⟩
    · obtain ⟨o, qq⟩ := uniRun_facts env st rest
      exact ⟨by simp [o], by rw [qq, hq]⟩
    · obtain ⟨o, qq⟩ := itRun_facts env st rest
      exact ⟨by simp [o], by rw [qq, hq]⟩
    · obtain ⟨o, qq⟩ := sceneRun_facts env st rest
      exact ⟨by simp [o], by rw [qq, hq]⟩
    · obtain ⟨o, qq⟩ := getRun_facts env st rest
      exact ⟨o, by rw [qq, hq]⟩
    · obtain ⟨o, qq⟩ := setRun_facts env st rest
      exact ⟨by simp [o], by rw [qq, hq]⟩
    · obtain ⟨o, qq⟩ := waitRun_facts st rest
      exact ⟨by simp [o], by rw [qq, hq]⟩
    · simp [hq]
    · simp [hq]
    · simp [isStatusEv, hq]

/-- C6 (amended): the quiet flag is local to one handle_input call: the
    flag value a previous line left behind has no effect on the next line
    (handle_line resets it to verbose), and within a line, while the flag is
    set, every dispatched command that is not VERBOSE leaves it set and
    emits no status line (its other outputs, such as the VERSION text, are
    not suppressed). -/
theorem quiet_per_line_only :
    (∀ (env : Env) (noOk : Bool) (st : CmdSt) (q : Bool) (line : List Char),
      handle_line env noOk { st with quiet := q } line = handle_line env noOk st line) ∧
    (∀ (env : Env) (noOk : Bool) (st : CmdSt) (text : List Char),
      st.quiet = true → firstTokIsVerbose (tokenize text) = false →
      ((exec_cmd env noOk st text).outs.all fun e => !isStatusEv e) = true ∧
      (exec_cmd env noOk st text).st.quiet = true) := by
  constructor
  · intro env noOk st q line
    unfold handle_line
    rfl
  · intro env noOk st text hq hv
    have hcc := cmdCore_quiet_status env st (tokenize text) hq hv
    unfold exec_cmd
    rcases hrr : cmdCore env st (tokenize text) with ⟨h, k⟩
    rw [hrr] at hcc
    simp only at hcc
    cases k <;> simp [hcc.1, hcc.2]

/-- C6 (counterexample to the claim as stated): QUIET on one input line
    does not suppress the status lines of later lines of the same session:
    after a QUIET line, a VERSION line still produces its status line,
    because the quiet flag is a local variable of handle_input that restarts
    false on every line. -/
theorem quiet_not_session_cex :
    (session env0 st0 [['Q', 'U', 'I', 'E', 'T'], ['V', 'E', 'R', 'S', 'I', 'O', 'N']]).2.1 =
      [.versionText, .statusLine ['V', 'E', 'R', 'S', 'I', 'O', 'N'] true .noMsg] := by
  decide

/-- Witness for quiet_per_line_only: a VERSION command under a set quiet
    flag emits no status line and keeps the flag. -/
theorem quiet_per_line_only_w :
    ((exec_cmd env0 false ⟨0, true, 0⟩ ['V', 'E', 'R', 'S', 'I', 'O', 'N']).outs.all
        fun e => !isStatusEv e) = true ∧
    (exec_cmd env0 false ⟨0, true, 0⟩ ['V', 'E', 'R', 'S', 'I', 'O', 'N']).st.quiet = true :=
  quiet_per_line_only.2 env0 false ⟨0, true, 0⟩ ['V', 'E', 'R', 'S', 'I', 'O', 'N'] rfl (by decide)



/-- The loop behaviour a command family produces: only the QUIT and EXIT
    branches of the dispatcher return early. -/
def kindOfFam : CmdFamily → StepKind
  | .fQuit => .quit
  | .fExit => .halt
  | _ => .cont

/-- The loop behaviour of one command, determined by its first token
    alone. -/
def kindOfToks : List (List Char) → StepKind
  | [] => .cont
  | t :: _ => kindOfFam (cmdSelect t)

/-- How a command makes the loop proceed depends only on its first token,
    never on the environment, the state or a failure. -/
lemma exec_kind (env : Env) (noOk : Bool) (st : CmdSt) (text : List Char) :
    (exec_cmd env noOk st text).kind = kindOfToks (tokenize text) := by
  unfold exec_cmd kindOfToks
  rcases htk : tokenize text with _ | ⟨t, rest⟩
  · simp [cmdCore]
  · cases hsel : cmdSelect t <;> simp [cmdCore, hsel, kindOfFam]

/-- Sequential composition of two line-loop results. -/
def seqLineRes (r1 r2 : LineRes) : LineRes :=
  ⟨r2.st, r1.outs ++ r2.outs, r1.sends ++ r2.sends, r2.rc⟩

/-- A QUIT or Q token selects the QUIT branch of the dispatcher. -/
lemma routeQuitSel {t : List Char} (h : cmdEq t kwQUIT = true ∨ cmdEq t kwQ = true) :
    cmdSelect t = .fQuit := by
  cases h with
  | inl h =>
    have e1 : cmdEq t kwHELP = false := cmdEq_ne h (by decide)
    have e2 : cmdEq t kwH = false := cmdEq_ne h (by decide)
    have e3 : cmdEq t kwQm = false := cmdEq_ne h (by decide)
    have e4 : cmdEq t kwVERSION = false := cmdEq_ne h (by decide)
    have e5 : cmdEq t kwVERBOSE = false := cmdEq_ne h (by decide)
    have e6 : cmdEq t kwQUIET = false := cmdEq_ne h (by decide)
    have e7 : cmdEq t kwFS20 = false := cmdEq_ne h (by decide)
    have e8 : cmdEq t kwUNI = false := cmdEq_ne h (by decide)
    have e9 : cmdEq t kwIT = false := cmdEq_ne h (by decide)
    have e10 : cmdEq t kwInterTechno = false := cmdEq_ne h (by decide)
    have e11 : cmdEq t kwSCENE = false := cmdEq_ne h (by decide)
    have e12 : cmdEq t kwGET = false := cmdEq_ne h (by decide)
    have e13 : cmdEq t kwSET = false := cmdEq_ne h (by decide)
    have e14 : cmdEq t kwWAIT = false := cmdEq_ne h (by decide)
    simp [cmdSelect, e1, e2, e3, e4, e5, e6, e7, e8, e9, e10, e11, e12, e13, e14, h]
  | inr h =>
    have e1 : cmdEq t kwHELP = false := cmdEq_ne h (by decide)
    have e2 : cmdEq t kwH = false := cmdEq_ne h (by decide)
    have e3 : cmdEq t kwQm = false := cmdEq_ne h (by decide)
    have e4 : cmdEq t kwVERSION = false := cmdEq_ne h (by decide)
    have e5 : cmdEq t kwVERBOSE = false := cmdEq_ne h (by decide)
    have e6 : cmdEq t kwQUIET = false := cmdEq_ne h (by decide)
    have e7 : cmdEq t kwFS20 = false := cmdEq_ne h (by decide)
    have e8 : cmdEq t kwUNI = false := cmdEq_ne h (by decide)
    have e9 : cmdEq t kwIT = false := cmdEq_ne h (by decide)
    have e10 : cmdEq t kwInterTechno = false := cmdEq_ne h (by decide)
    have e11 : cmdEq t kwSCENE = false := cmdEq_ne h (by decide)
    have e12 : cmdEq t kwGET = false := cmdEq_ne h (by decide)
    have e13 : cmdEq t kwSET = false := cmdEq_ne h (by decide)
    have e14 : cmdEq t kwWAIT = false := cmdEq_ne h (by decide)
    simp [cmdSelect, e1, e2, e3, e4, e5, e6, e7, e8, e9, e10, e11, e12, e13, e14, h]

/-- An EXIT or E token selects the EXIT branch of the dispatcher. -/
lemma routeExitSel {t : List Char} (h : cmdEq t kwEXIT = true ∨ cmdEq t kwE = true) :
    cmdSelect t = .fExit := by
  cases h with
  | inl h =>
    have e1 : cmdEq t kwHELP = false := cmdEq_ne h (by decide)
    have e2 : cmdEq t kwH = false := cmdEq_ne h (by decide)
    have e3 : cmdEq t kwQm = false := cmdEq_ne h (by decide)
    have e4 : cmdEq t kwVERSION = false := cmdEq_ne h (by decide)
    have e5 : cmdEq t kwVERBOSE = false := cmdEq_ne h (by decide)
    have e6 : cmdEq t kwQUIET = false := cmdEq_ne h (by decide)
    have e7 : cmdEq t kwFS20 = false := cmdEq_ne h (by decide)
    have e8 : cmdEq t kwUNI = false := cmdEq_ne h (by decide)
    have e9 : cmdEq t kwIT = false := cmdEq_ne h (by decide)
    have e10 : cmdEq t kwInterTechno = false := cmdEq_ne h (by decide)
    have e11 : cmdEq t kwSCENE = false := cmdEq_ne h (by decide)
    have e12 : cmdEq t kwGET = false := cmdEq_ne h (by decide)
    have e13 : cmdEq t kwSET = false := cmdEq_ne h (by decide)
    have e14 : cmdEq t kwWAIT = false := cmdEq_ne h (by decide)
    have e15 : cmdEq t kwQUIT = false := cmdEq_ne h (by decide)
    have e16 : cmdEq t kwQ = false := cmdEq_ne h (by decide)
    simp [cmdSelect, e1, e2, e3, e4, e5, e6, e7, e8, e9, e10, e11, e12, e13, e14, e15, e16, h]
  | inr h =>
    have e1 : cmdEq t kwHELP = false := cmdEq_ne h (by decide)
    have e2 : cmdEq t kwH = false := cmdEq_ne h (by decide)
    have e3 : cmdEq t kwQm = false := cmdEq_ne h (by decide)
    have e4 : cmdEq t kwVERSION = false := cmdEq_ne h (by decide)
    have e5 : cmdEq t kwVERBOSE = false := cmdEq_ne h (by decide)
    have e6 : cmdEq t kwQUIET = false := cmdEq_ne h (by decide)
    have e7 : cmdEq t kwFS20 = false := cmdEq_ne h (by decide)
    have e8 : cmdEq t kwUNI = false := cmdEq_ne h (by decide)
    have e9 : cmdEq t kwIT = false := cmdEq_ne h (by decide)
    have e10 : cmdEq t kwInterTechno = false := cmdEq_ne h (by decide)
    have e11 : cmdEq t kwSCENE = false := cmdEq_ne h (by decide)
    have e12 : cmdEq t kwGET = false := cmdEq_ne h (by decide)
    have e13 : cmdEq t kwSET = false := cmdEq_ne h (by decide)
    have e14 : cmdEq t kwWAIT = false := cmdEq_ne h (by decide)
    have e15 : cmdEq t kwQUIT = false := cmdEq_ne h (by decide)
    have e16 : cmdEq t kwQ = false := cmdEq_ne h (by decide)
    simp [cmdSelect, e1, e2, e3, e4, e5, e6, e7, e8, e9, e10, e11, e12, e13, e14, e15, e16, h]

/-- C8 (confirmed): in handle_input's command loop a command only ever
    ends the loop when its first token is QUIT/Q or EXIT/E: every command
    whose first token is anything else (including failing ones) continues,
    so any prefix of such commands executes completely and the rest of the
    line runs from the resulting state; a QUIT/EXIT command discards the
    commands after it. -/
theorem line_error_no_abort :
    (∀ (env : Env) (noOk : Bool) (st : CmdSt) (text : List Char),
      (exec_cmd env noOk st text).kind = kindOfToks (tokenize text)) ∧
    (∀ (env : Env) (noOk : Bool) (st : CmdSt) (cs1 cs2 : List (List Char)),
      (∀ c ∈ cs1, kindOfToks (tokenize c) = .cont) →
      lineLoop env noOk st (cs1 ++ cs2) =
        seqLineRes (lineLoop env noOk st cs1)
          (lineLoop env noOk (lineLoop env noOk st cs1).st cs2) ∧
      (lineLoop env noOk st cs1).rc = 0) ∧
    (∀ (env : Env) (noOk : Bool) (st : CmdSt) (c : List Char) (cs : List (List Char)),
      kindOfToks (tokenize c) ≠ .cont →
      lineLoop env noOk st (c :: cs) = lineLoop env noOk st [c]) ∧
    (∀ (t : List Char) (rest : List (List Char)),
      (kindOfToks (t :: rest) = .quit ↔ cmdSelect t = .fQuit) ∧
      (kindOfToks (t :: rest) = .halt ↔ cmdSelect t = .fExit)) ∧
    (∀ t : List Char,
      ((cmdEq t kwQUIT = true ∨ cmdEq t kwQ = true) → cmdSelect t = .fQuit) ∧
      ((cmdEq t kwEXIT = true ∨ cmdEq t kwE = true) → cmdSelect t = .fExit)) := by
  refine ⟨exec_kind, ?_, ?_, ?_, ?_⟩
  · intro env noOk st cs1 cs2 hall
    induction cs1 generalizing st with
    | nil => simp [lineLoop, seqLineRes]
    | cons c cs ih =>
      have hk : (exec_cmd env noOk st c).kind = .cont := by
        rw [exec_kind]; exact hall c (by simp)
      obtain ⟨e1, e2⟩ := ih (exec_cmd env noOk st c).st (fun x hx => hall x (by simp [hx]))
      constructor
      · simp only [List.cons_append, lineLoop, hk, List.append_eq]
        rw [e1]
        simp [lineLoop, hk, seqLineRes, List.append_assoc]
      · simp only [lineLoop, hk]
        exact e2
  · intro env noOk st c cs hne
    have hk := exec_kind env noOk st c
    rcases hkk : kindOfToks (tokenize c)
    · exact absurd hkk hne
    · rw [hkk] at hk
      simp [lineLoop, hk]
    · rw [hkk] at hk
      simp [lineLoop, hk]
  · intro t rest
    have : kindOfToks (t :: rest) = kindOfFam (cmdSelect t) := rfl
    rw [this]
    cases cmdSelect t <;> simp [kindOfFam]
  · intro t
    exact ⟨routeQuitSel, routeExitSel⟩

/-- Witness for line_error_no_abort: the failing unknown command FOO does
    not abort the VERSION command after it. -/
theorem line_error_no_abort_w :
    lineLoop env0 false st0 [['F', 'O', 'O'], ['V', 'E', 'R', 'S', 'I', 'O', 'N']] =
      seqLineRes (lineLoop env0 false st0 [['F', 'O', 'O']])
        (lineLoop env0 false (lineLoop env0 false st0 [['F', 'O', 'O']]).st
          [['V', 'E', 'R', 'S', 'I', 'O', 'N']]) ∧
    (lineLoop env0 false st0 [['F', 'O', 'O']]).rc = 0 :=
  line_error_no_abort.2.1 env0 false st0 [['F', 'O', 'O']] [['V', 'E', 'R', 'S', 'I', 'O', 'N']]
    (by decide)

end LMC
